import Mathlib

/-!
Verification development for the tldraw validator environment.

The definitions below are a shallow embedding of the Python sources
`environments/tldraw/tldraw.py` and `environments/tldraw/validator_client.py`:

* a JSON value type and a parser modelling `json.loads`;
* `parse_response_json` and `render_and_score` from `tldraw.py`;
* data-URL decoding (`_decode_data_url`), the validation round-trip
  (`ValidatorClient.validate`) and error logging (`log_error_payload`)
  from `validator_client.py`, with the external world (bridge calls,
  filesystem, screenshots) supplied as explicit oracle values;
* a schedule-driven small-step machine for the session pool
  (`start` / `close` / `_with_page`), interleaving cooperative tasks at
  their await points.

Machine-level effects (asyncio scheduling, playwright, disk I/O) are
modelled as explicit state passing; fallible operations return `Except`.
-/

set_option maxRecDepth 4000

/-- Left-brace character, written via its code point. -/
def lbrace : Char := Char.ofNat 123

/-- Right-brace character, written via its code point. -/
def rbrace : Char := Char.ofNat 125

namespace PyJson

/-- JSON values as produced by Python `json.loads`.  Numbers keep their
lexeme (no claim inspects numeric values). -/
inductive Json where
  | null : Json
  | bool (b : Bool) : Json
  | num (lexeme : String) : Json
  | str (s : String) : Json
  | arr (items : List Json) : Json
  | obj (fields : List (String × Json)) : Json

/-- JSON whitespace accepted by Python `json.loads`. -/
def isJsonWs (c : Char) : Bool :=
  c = ' ' || c = '\t' || c = '\n' || c = '\r'

/-- Skip leading JSON whitespace. -/
def skipWs (cs : List Char) : List Char :=
  cs.dropWhile isJsonWs

/-- Hexadecimal digit value, if any. -/
def hexVal (c : Char) : Option Nat :=
  if '0' ≤ c ∧ c ≤ '9' then some (c.toNat - '0'.toNat)
  else if 'a' ≤ c ∧ c ≤ 'f' then some (c.toNat - 'a'.toNat + 10)
  else if 'A' ≤ c ∧ c ≤ 'F' then some (c.toNat - 'A'.toNat + 10)
  else none

/-- Parse the body of a JSON string literal after the opening quote,
handling the escape sequences accepted by `json.loads`.  Unescaped
control characters are rejected (strict mode).  Surrogate pairs are not
recombined (no claim exercises them). -/
def parseStringBody : List Char → Option (List Char × List Char)
  | [] => none
  | '"' :: rest => some ([], rest)
  | '\\' :: e :: rest =>
    match e with
    | '"' => (parseStringBody rest).map (fun r => ('"' :: r.1, r.2))
    | '\\' => (parseStringBody rest).map (fun r => ('\\' :: r.1, r.2))
    | '/' => (parseStringBody rest).map (fun r => ('/' :: r.1, r.2))
    | 'b' => (parseStringBody rest).map (fun r => (Char.ofNat 8 :: r.1, r.2))
    | 'f' => (parseStringBody rest).map (fun r => (Char.ofNat 12 :: r.1, r.2))
    | 'n' => (parseStringBody rest).map (fun r => ('\n' :: r.1, r.2))
    | 'r' => (parseStringBody rest).map (fun r => ('\r' :: r.1, r.2))
    | 't' => (parseStringBody rest).map (fun r => ('\t' :: r.1, r.2))
    | 'u' =>
      match rest with
      | h1 :: h2 :: h3 :: h4 :: rest2 =>
        match hexVal h1, hexVal h2, hexVal h3, hexVal h4 with
        | some v1, some v2, some v3, some v4 =>
          (parseStringBody rest2).map
            (fun r => (Char.ofNat (((v1 * 16 + v2) * 16 + v3) * 16 + v4) :: r.1, r.2))
        | _, _, _, _ => none
      | _ => none
    | _ => none
  | c :: rest =>
    if c.toNat < 32 then none
    else (parseStringBody rest).map (fun r => (c :: r.1, r.2))

/-- Digit characters. -/
def isDigit (c : Char) : Bool := '0' ≤ c ∧ c ≤ '9'

/-- Parse a JSON number lexeme (sign, integer part without leading
zeros, optional fraction, optional exponent), as accepted by
`json.loads`.  Returns the lexeme and the remaining input. -/
def parseNumber (cs : List Char) : Option (List Char × List Char) :=
  let (sign, rest0) :=
    match cs with
    | '-' :: r => (['-'], r)
    | _ => (([] : List Char), cs)
  let intPart := rest0.takeWhile isDigit
  let rest1 := rest0.dropWhile isDigit
  if intPart = [] then none
  else if 1 < intPart.length ∧ intPart.headD 'x' = '0' then none
  else
    let fracRes : Option (Option (List Char) × List Char) :=
      match rest1 with
      | '.' :: r =>
        let ds := r.takeWhile isDigit
        if ds = [] then none else some (some ('.' :: ds), r.dropWhile isDigit)
      | _ => some (none, rest1)
    match fracRes with
    | none => none
    | some (frac, rest2) =>
      let expRes : Option (Option (List Char) × List Char) :=
        match rest2 with
        | e :: r =>
          if e = 'e' ∨ e = 'E' then
            let (es, r2) :=
              match r with
              | '+' :: rr => ((['+'] : List Char), rr)
              | '-' :: rr => ((['-'] : List Char), rr)
              | _ => (([] : List Char), r)
            let ds := r2.takeWhile isDigit
            if ds = [] then none else some (some (e :: es ++ ds), r2.dropWhile isDigit)
          else some (none, rest2)
        | _ => some (none, rest2)
      match expRes with
      | none => none
      | some (expo, rest3) =>
        some (sign ++ intPart ++ (frac.getD []) ++ (expo.getD []), rest3)

mutual

/-- Parse one JSON value (fuelled recursive descent, modelling
`json.loads`'s grammar). -/
def parseVal : Nat → List Char → Option (Json × List Char)
  | 0, _ => none
  | fuel + 1, cs =>
    match skipWs cs with
    | [] => none
    | c :: rest =>
      if c = '"' then
        (parseStringBody rest).map (fun r => (Json.str (String.mk r.1), r.2))
      else if c = lbrace then
        parseObjItems fuel (skipWs rest) true
      else if c = '[' then
        parseArrItems fuel (skipWs rest) true
      else if c = 'n' then
        match rest with
        | 'u' :: 'l' :: 'l' :: r => some (Json.null, r)
        | _ => none
      else if c = 't' then
        match rest with
        | 'r' :: 'u' :: 'e' :: r => some (Json.bool true, r)
        | _ => none
      else if c = 'f' then
        match rest with
        | 'a' :: 'l' :: 's' :: 'e' :: r => some (Json.bool false, r)
        | _ => none
      else if c = '-' ∨ isDigit c then
        (parseNumber (c :: rest)).map (fun r => (Json.num (String.mk r.1), r.2))
      else none

/-- Parse array items after `[` (whitespace already skipped).  The flag
marks whether we are at the first item (so `]` closes an empty array). -/
def parseArrItems : Nat → List Char → Bool → Option (Json × List Char)
  | 0, _, _ => none
  | fuel + 1, cs, first =>
    match cs with
    | ']' :: rest => if first then some (Json.arr [], rest) else none
    | _ =>
      match parseVal fuel cs with
      | none => none
      | some (v, rest) =>
        match skipWs rest with
        | ',' :: rest2 =>
          match parseArrItems fuel (skipWs rest2) false with
          | some (Json.arr items, rest3) => some (Json.arr (v :: items), rest3)
          | _ => none
        | ']' :: rest2 => some (Json.arr [v], rest2)
        | _ => none

/-- Parse object members after the opening brace (whitespace already
skipped).  The flag marks whether we are at the first member. -/
def parseObjItems : Nat → List Char → Bool → Option (Json × List Char)
  | 0, _, _ => none
  | fuel + 1, cs, first =>
    match cs with
    | c :: rest =>
      if c = rbrace then
        if first then some (Json.obj [], rest) else none
      else if c = '"' then
        match parseStringBody rest with
        | none => none
        | some (key, rest1) =>
          match skipWs rest1 with
          | ':' :: rest2 =>
            match parseVal fuel rest2 with
            | none => none
            | some (v, rest3) =>
              match skipWs rest3 with
              | ',' :: rest4 =>
                match parseObjItems fuel (skipWs rest4) false with
                | some (Json.obj fields, rest5) =>
                  some (Json.obj ((String.mk key, v) :: fields), rest5)
                | _ => none
              | d :: rest4 =>
                if d = rbrace then some (Json.obj [(String.mk key, v)], rest4)
                else none
              | _ => none
          | _ => none
      else none
    | _ => none

end

/-- Model of Python `json.loads`: parse one JSON value, allow
surrounding whitespace, and reject any trailing content. -/
def json_loads (text : String) : Option Json :=
  let cs := text.toList
  match parseVal (cs.length + 1) cs with
  | none => none
  | some (v, rest) => if skipWs rest = [] then some v else none

end PyJson

namespace Tldraw

open PyJson

/-- Model of Python `str.find` for a single character: index of the
first occurrence, or `-1`. -/
def pyFind (cs : List Char) (c : Char) : Int :=
  match cs.indexOf? c with
  | some i => (i : Int)
  | none => -1

/-- Model of Python `str.rfind` for a single character: index of the
last occurrence, or `-1`. -/
def pyRfind (cs : List Char) (c : Char) : Int :=
  match cs.reverse.indexOf? c with
  | some i => ((cs.length - 1 - i : Nat) : Int)
  | none => -1

/-- Stand-in for the text of the `json.JSONDecodeError` exception that
is interpolated into the fallback error message of
`parse_response_json`; the Python message text is abstracted to a fixed
non-empty detail string. -/
def jsonErrorDetail : String := "Expecting value"

/-- The substring `text[start : end + 1]` between the first left brace
(`str.find`) and the last right brace (`str.rfind`), or `none` exactly
when `start == -1 or end == -1 or end <= start`. -/
def braceSubstring (text : String) : Option String :=
  let cs := text.toList
  let start := pyFind cs lbrace
  let stop := pyRfind cs rbrace
  if start = -1 ∨ stop = -1 ∨ stop ≤ start then none
  else some (String.mk ((cs.drop start.toNat).take (stop.toNat + 1 - start.toNat)))

/-- Embedding of `tldraw.parse_response_json` (tldraw.py:297-311):
direct `json.loads` first; on failure, parse the substring between the
first left brace and the last right brace. -/
def parse_response_json (text : String) : Option Json × Option String :=
  match json_loads text with
  | some v => (some v, none)
  | none =>
    match braceSubstring text with
    | none => (none, some ("Response does not contain JSON"))
    | some sub =>
      match json_loads sub with
      | some v => (some v, none)
      | none => (none, some ("Invalid JSON: " ++ jsonErrorDetail))

/-- One error record as stored inside a validation result
(`\x7bstage?, message\x7d`). -/
structure ErrorEntry where
  stage : Option String
  message : String
deriving DecidableEq, Repr

/-- The fields of a bridge validation result consulted by
`render_and_score` (tldraw.py): `errors` and `action_errors`; either
may be absent. -/
structure TResult where
  errors : Option (List ErrorEntry)
  action_errors : Option (List ErrorEntry)
deriving DecidableEq, Repr

/-- The result dict `\x7b"errors": [\x7b"message": m\x7d]\x7d` stored
into `state["render"]` on the short-circuit failure paths. -/
def errResult (m : String) : TResult :=
  { errors := some [{ stage := none, message := m }], action_errors := none }

/-- One chat turn of the completion; `render_and_score` reads
`completion[-1].get("content", "")`. -/
structure ChatMessage where
  content : Option String
deriving DecidableEq, Repr

/-- The caller-supplied mutable state mapping.  `validatorPresent`
models whether `state.get("validator")` is set; `other` stands for all
remaining keys of the mapping, which `render_and_score` never touches. -/
structure VfState where
  validatorPresent : Bool
  render : Option TResult
  actions : Option (List Json)
  other : List (String × String)

/-- Python truthiness of an optional string (`if error:`). -/
def optStrTruthy : Option String → Bool
  | none => false
  | some s => s ≠ ""

/-- Python falsiness of `result.get("errors")`: absent key or empty
list. -/
def errorsFalsy (r : TResult) : Bool :=
  r.errors = none ∨ r.errors = some []

/-- The shape check of `render_and_score`: `data.get("actions")` on a
dict, then `isinstance(actions, list)` — some list exactly when the
parsed value is an object whose `actions` field is a sequence. -/
def getActionsList (d : Option Json) : Option (List Json) :=
  match d with
  | some (Json.obj fields) =>
    match fields.lookup ("actions") with
    | some (Json.arr l) => some l
    | _ => none
  | _ => none

/-- The final score expression of `render_and_score`
(tldraw.py:339): `1.0 if not result.get("errors") else 0.0`. -/
def scoreOfResult (r : TResult) : ℚ :=
  if errorsFalsy r then 1 else 0

/-- Embedding of `tldraw.render_and_score` (tldraw.py:313-339).  The
round-trip `validator.validate(actions)` is an oracle `bridge`: either
the raw result dict or a raised transport error.  A raised error
propagates (`Except.error`); otherwise the score and the updated state
mapping are returned.  A validator is available when passed explicitly
or found under `state.get("validator")`. -/
def render_and_score (completion : List ChatMessage) (state : VfState)
    (validatorArg : Bool) (bridge : Except String TResult) :
    Except String (ℚ × VfState) :=
  match completion.getLast? with
  | none =>
    .ok (0, { state with render := some (errResult ("Empty completion")) })
  | some last =>
    let pr := parse_response_json (last.content.getD "")
    if optStrTruthy pr.2 then
      .ok (0, { state with render := some (errResult (pr.2.getD "")) })
    else
      match getActionsList pr.1 with
      | none =>
        .ok (0, { state with render := some (errResult ("Missing actions array")) })
      | some l =>
        if validatorArg || state.validatorPresent then
          match bridge with
          | .error e => .error e
          | .ok result =>
            .ok (scoreOfResult result,
                 { state with render := some result, actions := some l })
        else
          .ok (0, { state with render := some (errResult ("Validator client not available")) })

end Tldraw

namespace VClient

open PyJson Tldraw

/-- Characters of the standard base64 alphabet. -/
def isB64Char (c : Char) : Bool :=
  ('A' ≤ c ∧ c ≤ 'Z') ∨ ('a' ≤ c ∧ c ≤ 'z') ∨ ('0' ≤ c ∧ c ≤ '9') ∨ c = '+' ∨ c = '/'

/-- Six-bit value of a base64 alphabet character. -/
def b64Val (c : Char) : Nat :=
  if 'A' ≤ c ∧ c ≤ 'Z' then c.toNat - 'A'.toNat
  else if 'a' ≤ c ∧ c ≤ 'z' then c.toNat - 'a'.toNat + 26
  else if '0' ≤ c ∧ c ≤ '9' then c.toNat - '0'.toNat + 52
  else if c = '+' then 62 else 63

/-- Decode base64 input in groups of four characters, with `=` padding
allowed only at the end of the final group; any other shape raises
`binascii.Error`. -/
def decodeQuads : List Char → Except String (List Nat)
  | [] => .ok []
  | c1 :: c2 :: c3 :: c4 :: rest =>
    if c1 = '=' ∨ c2 = '=' then .error "Invalid base64-encoded string"
    else if c3 = '=' then
      if c4 = '=' ∧ rest = [] then .ok [b64Val c1 * 4 + b64Val c2 / 16]
      else .error "Invalid base64-encoded string"
    else if c4 = '=' then
      if rest = [] then
        .ok [b64Val c1 * 4 + b64Val c2 / 16, (b64Val c2 % 16) * 16 + b64Val c3 / 4]
      else .error "Invalid base64-encoded string"
    else
      (decodeQuads rest).map (fun bs =>
        (b64Val c1 * 4 + b64Val c2 / 16) ::
        ((b64Val c2 % 16) * 16 + b64Val c3 / 4) ::
        ((b64Val c3 % 4) * 64 + b64Val c4) :: bs)
  | _ => .error "Incorrect padding"

/-- Model of Python `base64.b64decode` with the default
`validate=False`: characters outside the base64 alphabet and `=` are
discarded, and the remainder must consist of four-character groups with
padding only at the very end, else `binascii.Error` is raised
(`Except.error`). -/
def b64decode (s : List Char) : Except String (List Nat) :=
  decodeQuads (s.filter (fun c => isB64Char c || c = '='))

/-- Byte-level model of `urllib.parse.unquote`: `%XX` hex escapes
become the character with that code; malformed escapes are kept
verbatim.  (Multi-byte UTF-8 percent sequences are decoded bytewise
rather than recombined; no claim depends on non-ASCII text.)  It never
fails. -/
def unquote : List Char → List Char
  | [] => []
  | '%' :: h1 :: h2 :: rest =>
    match hexVal h1, hexVal h2 with
    | some v1, some v2 => Char.ofNat (v1 * 16 + v2) :: unquote rest
    | _, _ => '%' :: unquote (h1 :: h2 :: rest)
  | c :: rest => c :: unquote rest

/-- UTF-8 encoding of one character (model of `str.encode("utf-8")`). -/
def utf8EncodeChar (c : Char) : List Nat :=
  let n := c.toNat
  if n < 128 then [n]
  else if n < 2048 then [192 + n / 64, 128 + n % 64]
  else if n < 65536 then [224 + n / 4096, 128 + (n / 64) % 64, 128 + n % 64]
  else [240 + n / 262144, 128 + (n / 4096) % 64, 128 + (n / 64) % 64, 128 + n % 64]

/-- UTF-8 encoding of a character sequence. -/
def utf8Encode (cs : List Char) : List Nat :=
  (cs.map utf8EncodeChar).flatten

/-- Model of `re.match(r"^data:image/([^;]+);MARKER,(.+)$", url,
re.DOTALL)` for a literal marker: the URL must begin with
`data:image/`, followed by a non-empty extension free of `;`, then
`;MARKER,`, then a non-empty payload.  Returns extension and payload. -/
def matchDataUrl (marker : List Char) (u : List Char) : Option (List Char × List Char) :=
  let pre := ("data:image/").toList
  if pre.isPrefixOf u then
    let rest := u.drop pre.length
    let ext := rest.takeWhile (fun c => c ≠ ';')
    match rest.dropWhile (fun c => c ≠ ';') with
    | ';' :: after =>
      if ext ≠ [] ∧ (marker ++ [',']).isPrefixOf after then
        let payload := after.drop (marker.length + 1)
        if payload ≠ [] then some (ext, payload) else none
      else none
    | _ => none
  else none

/-- Embedding of `ValidatorClient._decode_data_url`
(validator_client.py:133-146): try the base64 pattern, then the utf8
pattern; `Except.error` models a raised `binascii.Error` escaping from
`base64.b64decode`, `.ok none` models Python `None` (no pattern
matched). -/
def _decode_data_url (u : List Char) : Except String (Option (String × List Nat)) :=
  match matchDataUrl (("base64").toList) u with
  | some (ext, payload) =>
    match b64decode payload with
    | .ok bs => .ok (some (String.mk ext, bs))
    | .error e => .error e
  | none =>
    match matchDataUrl (("utf8").toList) u with
    | some (ext, payload) => .ok (some (String.mk ext, utf8Encode (unquote payload)))
    | none => .ok none

/-- The `image` dict inside a validation result: the keys the code
touches (`url`, `path`) plus a flag recording whether any other key is
present (which decides Python dict truthiness). -/
structure ImageDict where
  url : Option String
  path : Option String
  extra : Bool
deriving DecidableEq, Repr

/-- A value found under the `image` key: either a dict or some truthy
or falsy non-dict value. -/
inductive ImageVal where
  | dict (d : ImageDict)
  | nonDict (truthy : Bool)
deriving DecidableEq, Repr

/-- Python truthiness of an image dict (non-empty dict). -/
def dictTruthy (d : ImageDict) : Bool :=
  d.url.isSome || d.path.isSome || d.extra

/-- A validation result as handled by `ValidatorClient.validate`:
`errors` / `action_errors` as reported by the bridge, the optional
`image` payload, and the provenance fields the method may add. -/
structure VResult where
  errors : Option (List ErrorEntry)
  action_errors : Option (List ErrorEntry)
  image : Option ImageVal
  image_source : Option String
  image_dir : Option String
  error_log_path : Option String
deriving DecidableEq, Repr

/-- Configuration of the pooled client relevant to one `validate` call
(fields of `ValidatorClient` in validator_client.py). -/
structure VCConfig where
  save_screenshots : Bool
  screenshot_dir : String
  run_dir : Option String
  error_log_path : Option String
deriving DecidableEq, Repr

/-- Oracle for the external effects of one `validate` round-trip: the
two bridge calls, disk writes, and the fallback screenshot.  A `some`
message means the corresponding operation raises. -/
structure VWorld where
  resetErr : Option String
  validateOutcome : Except String VResult
  writeErr : Option String
  mkdirErr : Option String
  screenshotErr : Option String
  randName : String

/-- Observable filesystem effects of one `validate` call: files
persisted from decoded data URLs and the full-page screenshot, if any. -/
structure VEffects where
  wrote : List String
  screenshot : Option String
deriving DecidableEq, Repr

/-- Embedding of `ValidatorClient._build_screenshot_path`
(validator_client.py:111-116).  When no run directory exists the
screenshot directory is created first (`mkdir`, which can raise). -/
def _build_screenshot_path (c : VCConfig) (w : VWorld) (ext : String) :
    Except String String :=
  match c.run_dir with
  | none =>
    match w.mkdirErr with
    | some e => .error e
    | none => .ok (c.screenshot_dir ++ "/render_" ++ w.randName ++ "." ++ ext)
  | some d => .ok (d ++ "/render_" ++ w.randName ++ "." ++ ext)

/-- Embedding of `ValidatorClient._save_data_url`
(validator_client.py:148-156): decode, build a target path, write.
Returns the saved path (or `none` when the URL is undecodable) plus the
list of files written; decode and disk failures raise. -/
def _save_data_url (c : VCConfig) (w : VWorld) (u : String) :
    Except String (Option String × List String) :=
  match _decode_data_url u.toList with
  | .error e => .error e
  | .ok none => .ok (none, [])
  | .ok (some (ext, _)) =>
    match _build_screenshot_path c w ext with
    | .error e => .error e
    | .ok target =>
      match w.writeErr with
      | some e => .error e
      | none => .ok (some target, [target])

/-- Embedding of `ValidatorClient._write_data_url`
(validator_client.py:158-166): decode and write to an explicit target.
Returns whether the write happened plus the files written; decode and
disk failures raise. -/
def _write_data_url (w : VWorld) (u : String) (target : String) :
    Except String (Bool × List String) :=
  match _decode_data_url u.toList with
  | .error e => .error e
  | .ok none => .ok (false, [])
  | .ok (some _) =>
    match w.writeErr with
    | some e => .error e
    | none => .ok (true, [target])

/-- Append an error entry via
`result.setdefault("errors", []).append(...)`. -/
def appendError (r : VResult) (stage msg : String) : VResult :=
  { r with errors := some ((r.errors.getD []) ++ [{ stage := some stage, message := msg }]) }

/-- The image-export stage of `ValidatorClient.validate`
(validator_client.py:177-212): when the result carries a truthy image
dict, try to persist its data URL — to the explicit screenshot path if
one was given, else to a generated path when screenshot saving is
enabled — rewriting the image payload on success and appending an
export-stage error otherwise.  Returns the updated result and the list
of files written. -/
def resolveImage (c : VCConfig) (w : VWorld) (screenshot_path : Option String)
    (result0 : VResult) : Except String (VResult × List String) :=
  match result0.image with
  | some (.dict d) =>
    if dictTruthy d then
      if optStrTruthy screenshot_path then
        let sp := screenshot_path.getD ""
        match d.url with
        | some u =>
          if optStrTruthy (some u) then
            match _write_data_url w u sp with
            | .error e => .error e
            | .ok (true, files) =>
              .ok ({ result0 with
                     image := some (.dict { d with url := none, path := some sp }),
                     image_source := some ("tldraw_export") }, files)
            | .ok (false, files) =>
              .ok (appendError result0 ("export")
                    ("Image export failed: unable to save data URL"), files)
          else
            .ok (appendError result0 ("export")
                  ("Image export failed: unable to save data URL"), [])
        | none =>
          .ok (appendError result0 ("export")
                ("Image export failed: unable to save data URL"), [])
      else if c.save_screenshots then
        match d.url with
        | some u =>
          if optStrTruthy (some u) then
            match _save_data_url c w u with
            | .error e => .error e
            | .ok (some saved, files) =>
              .ok ({ result0 with
                     image := some (.dict { d with url := none, path := some saved }),
                     image_source := some ("tldraw_export") }, files)
            | .ok (none, files) =>
              .ok (appendError result0 ("export")
                    ("Image export failed: unsupported data URL"), files)
          else
            .ok (appendError result0 ("export")
                  ("Image export failed: missing data URL"), [])
        | none =>
          .ok (appendError result0 ("export")
                ("Image export failed: missing data URL"), [])
      else .ok (result0, [])
    else .ok (result0, [])
  | _ => .ok (result0, [])

/-- The provenance annotation at the end of `validate`
(validator_client.py:227-230): record the run directory and the error
log path when they exist. -/
def annotateResult (c : VCConfig) (r : VResult) : VResult :=
  let r2 := match c.run_dir with
    | some dd => { r with image_dir := some dd }
    | none => r
  match c.error_log_path with
  | some p => { r2 with error_log_path := some p }
  | none => r2

/-- The full-page-screenshot fallback of `validate`
(validator_client.py:213-226) followed by the provenance annotation:
when screenshot saving is on and no image source was resolved, take a
full-page screenshot to the explicit or generated path; a raised
screenshot error is caught and recorded as a fallback-stage error. -/
def fallbackShot (c : VCConfig) (w : VWorld) (screenshot_path : Option String)
    (r1 : VResult) (files : List String) : Except String (VResult × VEffects) :=
  if c.save_screenshots ∧ ¬ optStrTruthy r1.image_source then
    let targetRes : Except String String :=
      if optStrTruthy screenshot_path then .ok (screenshot_path.getD "")
      else _build_screenshot_path c w ("png")
    match targetRes with
    | .error e => .error e
    | .ok target =>
      match w.screenshotErr with
      | some e =>
        .ok (annotateResult c (appendError r1 ("fallback")
              ("Fallback screenshot failed: " ++ e)),
             { wrote := files, screenshot := none })
      | none =>
        let img := match r1.image with
          | some (.dict d) => ImageVal.dict { d with path := some target }
          | _ => ImageVal.dict { url := none, path := some target, extra := false }
        let r2 := { r1 with image := some img }
        let r3 := { r2 with image_source := some ("page_screenshot") }
        .ok (annotateResult c r3, { wrote := files, screenshot := some target })
  else .ok (annotateResult c r1, { wrote := files, screenshot := none })

/-- Embedding of `ValidatorClient.validate` (validator_client.py:168-231)
for one leased page: reset, bridge validate, image resolution (export
or fallback screenshot), then provenance annotation.  Transport and
uncaught disk failures surface as `Except.error`. -/
def validate (c : VCConfig) (w : VWorld) (screenshot_path : Option String) :
    Except String (VResult × VEffects) :=
  match w.resetErr with
  | some e => .error e
  | none =>
    match w.validateOutcome with
    | .error e => .error e
    | .ok result0 =>
      match resolveImage c w screenshot_path result0 with
      | .error e => .error e
      | .ok (r1, files) => fallbackShot c w screenshot_path r1 files

/-- Configuration relevant to error logging. -/
structure LogConfig where
  log_errors : Bool
  error_log_dir : String
deriving DecidableEq, Repr

/-- Mutable client state touched by error logging. -/
structure LogState where
  run_tag : Option String
  error_log_path : Option String
deriving DecidableEq, Repr

/-- Oracle for the external effects of error logging: directory
creation and the append to the jsonl file; `nowTag` supplies the
timestamp-plus-random run tag suffix. -/
structure LogWorld where
  mkdirErr : Option String
  appendErr : Option String
  nowTag : String
deriving DecidableEq, Repr

/-- Embedding of `ValidatorClient._ensure_run_tag`
(validator_client.py:45-50). -/
def _ensure_run_tag (s : LogState) (w : LogWorld) : String × LogState :=
  match s.run_tag with
  | some t => (t, s)
  | none =>
    let t := "run_" ++ w.nowTag
    (t, { s with run_tag := some t })

/-- Embedding of `ValidatorClient._ensure_error_log_path`
(validator_client.py:52-62).  Creating the log directory (`mkdir`) can
raise; nothing here catches it. -/
def _ensure_error_log_path (c : LogConfig) (s : LogState) (w : LogWorld) :
    Except String (Option String × LogState) :=
  if c.log_errors then
    match s.error_log_path with
    | some p => .ok (some p, s)
    | none =>
      let tag := (_ensure_run_tag s w).1
      let s1 := (_ensure_run_tag s w).2
      match w.mkdirErr with
      | some e => .error e
      | none =>
        let p := c.error_log_dir ++ "/" ++ tag ++ "/errors.jsonl"
        .ok (some p, { s1 with error_log_path := some p })
  else .ok (none, s)

/-- Embedding of `ValidatorClient.log_error_payload`
(validator_client.py:118-131) for an arbitrary payload.  The returned
triple is the Python return value (the log path, or `None`), the
updated client state, and whether the diagnostic logger recorded a
swallowed append failure.  Only the open/write of the append is inside
the `try`; `_ensure_error_log_path` is called outside it. -/
def log_error_payload (c : LogConfig) (s : LogState) (w : LogWorld)
    (_payload : List (String × String)) :
    Except String (Option String × LogState × Bool) :=
  if c.log_errors then
    let ensured : Except String LogState :=
      match s.error_log_path with
      | some _ => .ok s
      | none =>
        match _ensure_error_log_path c s w with
        | .error e => .error e
        | .ok (_, s1) => .ok s1
    match ensured with
    | .error e => .error e
    | .ok s1 =>
      match s1.error_log_path with
      | none => .ok (none, s1, false)
      | some p =>
        match w.appendErr with
        | some _ => .ok (none, s1, true)
        | none => .ok (some p, s1, false)
  else .ok (none, s, false)

/-- Number of ErrorLogEntry records one `log_error_payload` call
appends: the body of the `try` performs a single
`handle.write(json.dumps(payload) + "\n")`, so exactly one record is
appended when the call returns the log path and none otherwise. -/
def logAppendCount (c : LogConfig) (s : LogState) (w : LogWorld)
    (payload : List (String × String)) : Nat :=
  match log_error_payload c s w payload with
  | .ok (some _, _, _) => 1
  | _ => 0

end VClient

namespace Pool

/-- One page (browser tab) of the pool, identified by the launch
generation of the browser it belongs to and its creation index within
that launch. -/
structure Page where
  gen : Nat
  idx : Nat
deriving DecidableEq, Repr

/-- What a task does once `start()` returns: nothing (a bare `start()`
call), or fall through to the page lease of `_with_page`, holding the
page for a round-trip whose body may raise. -/
inductive Cont where
  | bare
  | thenLease (bodyFails : Bool)
deriving DecidableEq, Repr

/-- Program counters at the await points of the pool code: `start()`
(validator_client.py:64-93 and tldraw.py:238-254), the queue round-trip
of `_with_page` (validator_client.py:102-109 and tldraw.py:263-270),
and `close()` (validator_client.py:95-100 and tldraw.py:256-261). -/
inductive PC where
  | startCheck (k : Cont)
  | startLock (k : Cont)
  | startRecheck (k : Cont)
  | startLaunch (k : Cont)
  | startCreate (i : Nat) (k : Cont)
  | rtGet (bodyFails : Bool)
  | rtBody (p : Page) (bodyFails : Bool)
  | closing
deriving DecidableEq, Repr

/-- The operations a client task can perform against the pool. -/
inductive Op where
  | opStart
  | opClose
  | opLease (bodyFails : Bool)
deriving DecidableEq, Repr

/-- State of one cooperative task: waiting to dispatch its next
operation, running at an await point, finished, or killed by an
uncaught exception (which discards its remaining operations). -/
inductive TaskState where
  | ready (ops : List Op)
  | running (pc : PC) (rest : List Op)
  | done
  | raised
deriving DecidableEq, Repr

/-- Global pool state: the translated fields of `ValidatorClient`
(`_started`, the asyncio lock, the FIFO `_queue`) plus bookkeeping that
only counts what already happened: `browserGen` is the number of
chromium launches so far (the live browser is generation
`browserGen - 1`), `closedGens` the generations whose browser was
closed, and `created` the number of pages ever opened. -/
structure Config where
  poolSize : Nat
  started : Bool
  lockHeld : Option Nat
  queue : List Page
  browserGen : Nat
  closedGens : List Nat
  created : Nat
  tasks : List TaskState
deriving DecidableEq, Repr

/-- Where a task goes when its `start()` call returns. -/
def finishStart (k : Cont) (rest : List Op) : TaskState :=
  match k with
  | .bare => .ready rest
  | .thenLease bf => .running (.rtGet bf) rest

/-- One interleaving step: task `t` runs from its current await point
to the next one.  `fail` injects a raised playwright error into the
fallible initialization steps (directory setup / browser launch, or one
page creation); every other step is infallible in the source.  A task
blocked on the lock or on an empty queue leaves the state unchanged.
Page creation appends to the FIFO queue; `_with_page` re-enqueues the
held page in its `finally:` on both exit paths; `close()` closes the
current browser and clears `_started` but does not touch the queue. -/
def step (c : Config) (t : Nat) (fail : Bool) : Config :=
  match c.tasks[t]? with
  | none => c
  | some ts =>
    match ts with
    | .done => c
    | .raised => c
    | .ready [] => { c with tasks := c.tasks.set t .done }
    | .ready (op :: rest) =>
      let pc := match op with
        | .opStart => PC.startCheck .bare
        | .opClose => PC.closing
        | .opLease bf => PC.startCheck (.thenLease bf)
      { c with tasks := c.tasks.set t (.running pc rest) }
    | .running pc rest =>
      match pc with
      | .startCheck k =>
        if c.started then { c with tasks := c.tasks.set t (finishStart k rest) }
        else { c with tasks := c.tasks.set t (.running (.startLock k) rest) }
      | .startLock k =>
        match c.lockHeld with
        | some _ => c
        | none =>
          { c with lockHeld := some t,
                   tasks := c.tasks.set t (.running (.startRecheck k) rest) }
      | .startRecheck k =>
        if c.started then
          { c with lockHeld := none, tasks := c.tasks.set t (finishStart k rest) }
        else
          { c with tasks := c.tasks.set t (.running (.startLaunch k) rest) }
      | .startLaunch k =>
        if fail then
          { c with lockHeld := none, tasks := c.tasks.set t .raised }
        else
          { c with browserGen := c.browserGen + 1,
                   tasks := c.tasks.set t (.running (.startCreate 0 k) rest) }
      | .startCreate i k =>
        if i = c.poolSize then
          { c with started := true, lockHeld := none,
                   tasks := c.tasks.set t (finishStart k rest) }
        else if fail then
          { c with lockHeld := none, tasks := c.tasks.set t .raised }
        else
          { c with queue := c.queue ++ [{ gen := c.browserGen - 1, idx := i }],
                   created := c.created + 1,
                   tasks := c.tasks.set t (.running (.startCreate (i + 1) k) rest) }
      | .rtGet bf =>
        match c.queue with
        | [] => c
        | p :: q =>
          { c with queue := q, tasks := c.tasks.set t (.running (.rtBody p bf) rest) }
      | .rtBody p bf =>
        { c with queue := c.queue ++ [p],
                 tasks := c.tasks.set t (if bf then .raised else .ready rest) }
      | .closing =>
        { c with started := false,
                 closedGens :=
                   if 0 < c.browserGen then (c.browserGen - 1) :: c.closedGens
                   else c.closedGens,
                 tasks := c.tasks.set t (.ready rest) }

/-- Run a schedule: a list of (task, failure-injection) choices. -/
def run (c : Config) (sched : List (Nat × Bool)) : Config :=
  sched.foldl (fun c' e => step c' e.1 e.2) c

/-- Initial pool state for `pool_size = n` and one op list per task. -/
def initConfig (n : Nat) (opss : List (List Op)) : Config :=
  { poolSize := n, started := false, lockHeld := none, queue := [],
    browserGen := 0, closedGens := [], created := 0,
    tasks := opss.map .ready }

/-- A task currently holding a leased page inside `_with_page`. -/
def isBody : TaskState → Bool
  | .running (.rtBody _ _) _ => true
  | _ => false

/-- Number of round-trips currently holding a page. -/
def inFlight (c : Config) : Nat :=
  c.tasks.countP isBody

/-- A task inside the critical section of `start()` (it holds the
asyncio lock). -/
def holdsLock : TaskState → Bool
  | .running (.startRecheck _) _ => true
  | .running (.startLaunch _) _ => true
  | .running (.startCreate _ _) _ => true
  | _ => false

/-- A task performing real initialization work (browser launch or page
creation). -/
def initPhase : TaskState → Bool
  | .running (.startLaunch _) _ => true
  | .running (.startCreate _ _) _ => true
  | _ => false

/-- The page-creation progress of a task, when it is creating pages. -/
def creatorIdx : TaskState → Option Nat
  | .running (.startCreate i _) _ => some i
  | _ => none

/-- Remaining operations of a task. -/
def opsOf : TaskState → List Op
  | .ready ops => ops
  | .running _ rest => rest
  | .done => []
  | .raised => []

/-- A task that never calls `close()`. -/
def closeFree (s : TaskState) : Bool :=
  (match s with
   | .running .closing _ => false
   | _ => true) && !(opsOf s).contains Op.opClose

/-- Queue accounting: idle pages plus pages held by in-flight
round-trips account for every page ever created. -/
def qInv (c : Config) : Prop :=
  c.queue.length + inFlight c = c.created

/-- The pool invariant behind the amended C3: in close-free,
failure-free executions the lock discipline of `start()` guarantees at
most one real initialization and at most `pool_size` pages. -/
def Inv3 (n : Nat) (c : Config) : Prop :=
  c.poolSize = n ∧
  (∀ (i : Nat) (s : TaskState), c.tasks[i]? = some s → closeFree s = true) ∧
  (∀ (i : Nat) (s : TaskState), c.tasks[i]? = some s → holdsLock s = true →
    c.lockHeld = some i) ∧
  (c.started = true →
    c.created = n ∧ c.browserGen = 1 ∧
    (∀ (i : Nat) (s : TaskState), c.tasks[i]? = some s → initPhase s = false)) ∧
  (c.started = false →
    ((∀ (i : Nat) (s : TaskState), c.tasks[i]? = some s → creatorIdx s = none) ∧
      c.created = 0 ∧ c.browserGen = 0) ∨
    (∃ (u j : Nat) (k : Cont) (rest : List Op),
      c.tasks[u]? = some (.running (.startCreate j k) rest) ∧
      c.created = j ∧ j ≤ n ∧ c.browserGen = 1))

end Pool

namespace Examples

open PyJson Tldraw VClient Pool

/-- The completion text of the spec example: exactly
`\x7b"actions": []\x7d`. -/
def exActionsText : String := "\x7b\"actions\": []\x7d"

/-- The spec example with surrounding garbage around the embedded
object. -/
def exGarbageText : String := "garbage \x7b\"actions\": []\x7d trailing"

/-- A text whose first top-level balanced object is valid JSON but
whose first-brace-to-last-brace substring is not. -/
def exTwoObjectsText : String := "a \x7b\"x\": 1\x7d b \x7b\"y\": 2\x7d c"

/-- A one-turn completion carrying the `exActionsText` payload. -/
def exCompletion : List ChatMessage := [{ content := some exActionsText }]

/-- An initial state mapping with a validator installed. -/
def exState : VfState :=
  { validatorPresent := true, render := none, actions := none,
    other := [("task", "draw a cat")] }

/-- A bridge result with empty `errors` but a non-empty
`action_errors`. -/
def exActionErrOnly : TResult :=
  { errors := none,
    action_errors := some [{ stage := none, message := "arrow missing binding" }] }

/-- A bridge result with a non-empty `errors` list. -/
def exValidationErr : TResult :=
  { errors := some [{ stage := some ("validation"), message := "unknown shape" }],
    action_errors := none }

/-- The state mapping after a completed round-trip that reported a
validation error. -/
def exStateAfterValidation : VfState :=
  { exState with render := some exValidationErr, actions := some [] }

/-- The state mapping after a completed round-trip that reported only
`action_errors`. -/
def exStateAfterActionErr : VfState :=
  { exState with render := some exActionErrOnly, actions := some [] }

/-- A bridge result with no errors at all. -/
def exCleanResult : TResult := { errors := none, action_errors := none }

/-- The state mapping after a successful round-trip. -/
def exStateAfterClean : VfState :=
  { exState with render := some exCleanResult, actions := some [] }

/-- A client configuration with screenshot saving enabled and the run
directory already established by `start()`. -/
def exVCConfig : VCConfig :=
  { save_screenshots := true,
    screenshot_dir := "outputs/screenshots",
    run_dir := some "outputs/screenshots/run_20260101_000000_abcd1234",
    error_log_path := some "outputs/errors/run_20260101_000000_abcd1234/errors.jsonl" }

/-- A data URL whose descriptor carries an unrecognized encoding
marker. -/
def exBase85Url : String := "data:image/png;base85,NOTDECODABLE"

/-- A data URL with the recognized base64 marker but a payload that is
not valid base64 (a single data character cannot form a group). -/
def exBadBase64Url : String := "data:image/png;base64,a"

/-- A bridge result whose image payload carries the unrecognized
marker. -/
def exBase85Result : VResult :=
  { errors := none, action_errors := none,
    image := some (.dict { url := some exBase85Url, path := none, extra := false }),
    image_source := none, image_dir := none, error_log_path := none }

/-- A bridge result whose image payload carries the malformed base64
data URL. -/
def exBadBase64Result : VResult :=
  { errors := none, action_errors := none,
    image := some (.dict { url := some exBadBase64Url, path := none, extra := false }),
    image_source := none, image_dir := none, error_log_path := none }

/-- A healthy world delivering `exBase85Result` from the bridge. -/
def exWorld85 : VWorld :=
  { resetErr := none, validateOutcome := .ok exBase85Result,
    writeErr := none, mkdirErr := none, screenshotErr := none,
    randName := "deadbeef" }

/-- A healthy world delivering `exBadBase64Result` from the bridge. -/
def exWorldBad64 : VWorld :=
  { resetErr := none, validateOutcome := .ok exBadBase64Result,
    writeErr := none, mkdirErr := none, screenshotErr := none,
    randName := "deadbeef" }

/-- A world whose `reset` bridge call raises a playwright timeout. -/
def exWorldResetFail : VWorld :=
  { resetErr := some "Timeout 15000ms exceeded.",
    validateOutcome := .ok exBase85Result,
    writeErr := none, mkdirErr := none, screenshotErr := none,
    randName := "deadbeef" }

/-- Logging enabled, nothing initialized yet. -/
def exLogConfig : LogConfig := { log_errors := true, error_log_dir := "outputs/errors" }

/-- Fresh logging state (no run tag, no log path). -/
def exLogStateFresh : LogState := { run_tag := none, error_log_path := none }

/-- Logging state after `start()` established the log path. -/
def exLogStateReady : LogState :=
  { run_tag := some "run_20260101_000000_abcd1234",
    error_log_path := some "outputs/errors/run_20260101_000000_abcd1234/errors.jsonl" }

/-- A world where creating the log directory raises a disk error. -/
def exLogWorldMkdirFail : LogWorld :=
  { mkdirErr := some "No space left on device",
    appendErr := none, nowTag := "20260101_000000_abcd1234" }

/-- A world where appending to the log file raises a disk error. -/
def exLogWorldAppendFail : LogWorld :=
  { mkdirErr := none,
    appendErr := some "No space left on device",
    nowTag := "20260101_000000_abcd1234" }

/-- A schedule entry list letting task `t` run `n` uninterrupted
failure-free steps. -/
def rep (t : Nat) (n : Nat) : List (Nat × Bool) := List.replicate n (t, false)

/-- Pool of size 2, two client tasks each performing one scoring
round-trip. -/
def cfgTwoLease : Config := initConfig 2 [[Op.opLease false], [Op.opLease false]]

/-- Schedule in which task 0 starts real initialization, creates one
page, then fails on the second page creation; task 1 then retries the
full initialization and performs its round-trip. -/
def schedPartialFail : List (Nat × Bool) := rep 0 6 ++ [(0, true)] ++ rep 1 10

/-- Pool of size 1 whose single task starts, closes, starts again, and
then leases a page. -/
def cfgRestart : Config := initConfig 1 [[Op.opStart, Op.opClose, Op.opStart, Op.opLease false]]

/-- Prefix of the restart schedule stopping right after the second
`start()` completes (before the lease). -/
def schedRestartPre : List (Nat × Bool) := rep 0 16

/-- Full restart schedule including the lease. -/
def schedRestart : List (Nat × Bool) := rep 0 19

/-- Pool of size 1, one round-trip whose body raises. -/
def cfgFailingBody : Config := initConfig 1 [[Op.opLease true]]

/-- Schedule running the failing round-trip to completion. -/
def schedFailingBody : List (Nat × Bool) := rep 0 11

end Examples

/-!
Theorems.  Each claim of the specification review is settled by one
named theorem below; corrected claims additionally get a closed
counterexample theorem, and theorems with hypotheses get a closed
witness instantiation.
-/

open PyJson Tldraw VClient Pool

/-- C2 (amended: the fallback parses the literal substring between the
first `\x7b` and the last `\x7d`, which need not coincide with the
first top-level balanced object).  `parse_response_json` is total: for
every string it returns either a parsed value with no error or no value
with a non-empty error message; a successful direct `json.loads` is
returned as-is; when the direct parse fails, any returned value comes
from parsing the brace-delimited substring; `'\x7b"actions": []\x7d'`
yields the object with no error, the garbage-wrapped variant extracts
the embedded object, and the empty string yields an error. -/
theorem c2_parse_response_json_contract :
    (∀ s : String,
      (∃ v, parse_response_json s = (some v, none)) ∨
      (∃ e, parse_response_json s = (none, some e) ∧ e ≠ "")) ∧
    (∀ s v, json_loads s = some v → parse_response_json s = (some v, none)) ∧
    (∀ s v, json_loads s = none → parse_response_json s = (some v, none) →
      ∃ sub, braceSubstring s = some sub ∧ json_loads sub = some v) ∧
    parse_response_json Examples.exActionsText =
      (some (Json.obj [("actions", Json.arr [])]), none) ∧
    parse_response_json Examples.exGarbageText =
      (some (Json.obj [("actions", Json.arr [])]), none) ∧
    parse_response_json ("") = (none, some ("Response does not contain JSON")) := by
  refine ⟨?_, ?_, ?_, rfl, rfl, rfl⟩
  · intro s
    cases h1 : json_loads s with
    | some v => exact Or.inl ⟨v, by simp [parse_response_json, h1]⟩
    | none =>
      cases h2 : braceSubstring s with
      | none =>
        exact Or.inr ⟨"Response does not contain JSON",
          by simp [parse_response_json, h1, h2], by decide⟩
      | some sub =>
        cases h3 : json_loads sub with
        | some v => exact Or.inl ⟨v, by simp [parse_response_json, h1, h2, h3]⟩
        | none =>
          exact Or.inr ⟨"Invalid JSON: " ++ jsonErrorDetail,
            by simp [parse_response_json, h1, h2, h3], by decide⟩
  · intro s v h
    simp [parse_response_json, h]
  · intro s v h1 h2
    cases h2' : braceSubstring s with
    | none => simp [parse_response_json, h1, h2'] at h2
    | some sub =>
      cases h3 : json_loads sub with
      | none => simp [parse_response_json, h1, h2', h3] at h2
      | some w =>
        simp [parse_response_json, h1, h2', h3] at h2
        exact ⟨sub, rfl, by rw [h3, h2]⟩

/-- Witness for C2: on the garbage-wrapped spec example the direct
parse fails and the returned object indeed comes from parsing the
brace-delimited substring. -/
theorem c2_parse_response_json_contract_witness :
    ∃ sub, braceSubstring Examples.exGarbageText = some sub ∧
      json_loads sub = some (Json.obj [("actions", Json.arr [])]) :=
  c2_parse_response_json_contract.2.2.1 Examples.exGarbageText
    (Json.obj [("actions", Json.arr [])]) rfl rfl

/-- Counterexample to C2 as stated: in
`'a \x7b"x": 1\x7d b \x7b"y": 2\x7d c'` the first top-level balanced
object `\x7b"x": 1\x7d` is valid JSON, yet `parse_response_json`
returns no object and an error, because the substring between the
first `\x7b` and the last `\x7d` spans both objects and is not valid
JSON. -/
theorem c2_counterexample :
    json_loads ("\x7b\"x\": 1\x7d") = some (Json.obj [("x", Json.num "1")]) ∧
    (parse_response_json Examples.exTwoObjectsText).1 = none ∧
    (parse_response_json Examples.exTwoObjectsText).2 =
      some ("Invalid JSON: " ++ jsonErrorDetail) :=
  ⟨rfl, rfl, rfl⟩

/-- C1 (amended: `action_errors` is never consulted and a transport
failure raises instead of scoring).  Full path characterization of
`render_and_score`: every returned score is 0 or 1, and a score of 1
implies a completed bridge call with falsy `errors`; each guard failure
(empty completion, parse error, missing actions array, no validator
available) returns exactly 0 together with the corresponding error
record; when the guards pass and the bridge completes, the call returns
exactly 1.0 if the result has absent or empty `errors` and exactly 0.0
otherwise — `action_errors` plays no role; when the guards pass and the
bridge raises, the very same error propagates to the caller instead of
any score. -/
theorem c1_render_and_score_score_contract :
    ∀ (completion : List ChatMessage) (state : VfState) (varg : Bool)
      (bridge : Except String TResult),
    (∀ s st, render_and_score completion state varg bridge = .ok (s, st) →
      (s = 0 ∨ s = 1) ∧ (s = 1 → ∃ r, bridge = .ok r ∧ errorsFalsy r = true)) ∧
    (completion.getLast? = none →
      render_and_score completion state varg bridge =
        .ok (0, { state with render := some (errResult ("Empty completion")) })) ∧
    (∀ last, completion.getLast? = some last →
      optStrTruthy (parse_response_json (last.content.getD "")).2 = true →
      render_and_score completion state varg bridge =
        .ok (0, { state with render := some (errResult
              ((parse_response_json (last.content.getD "")).2.getD "")) })) ∧
    (∀ last, completion.getLast? = some last →
      optStrTruthy (parse_response_json (last.content.getD "")).2 = false →
      getActionsList (parse_response_json (last.content.getD "")).1 = none →
      render_and_score completion state varg bridge =
        .ok (0, { state with render := some (errResult ("Missing actions array")) })) ∧
    (∀ last l, completion.getLast? = some last →
      optStrTruthy (parse_response_json (last.content.getD "")).2 = false →
      getActionsList (parse_response_json (last.content.getD "")).1 = some l →
      (varg || state.validatorPresent) = false →
      render_and_score completion state varg bridge =
        .ok (0, { state with render := some (errResult ("Validator client not available")) })) ∧
    (∀ last l r, completion.getLast? = some last →
      optStrTruthy (parse_response_json (last.content.getD "")).2 = false →
      getActionsList (parse_response_json (last.content.getD "")).1 = some l →
      (varg || state.validatorPresent) = true →
      bridge = .ok r → errorsFalsy r = true →
      render_and_score completion state varg bridge =
        .ok (1, { state with render := some r, actions := some l })) ∧
    (∀ last l r, completion.getLast? = some last →
      optStrTruthy (parse_response_json (last.content.getD "")).2 = false →
      getActionsList (parse_response_json (last.content.getD "")).1 = some l →
      (varg || state.validatorPresent) = true →
      bridge = .ok r → errorsFalsy r = false →
      render_and_score completion state varg bridge =
        .ok (0, { state with render := some r, actions := some l })) ∧
    (∀ last l e, completion.getLast? = some last →
      optStrTruthy (parse_response_json (last.content.getD "")).2 = false →
      getActionsList (parse_response_json (last.content.getD "")).1 = some l →
      (varg || state.validatorPresent) = true →
      bridge = .error e →
      render_and_score completion state varg bridge = .error e) := by
  intro completion state varg bridge
  refine ⟨?_, ?_, ?_, ?_, ?_, ?_, ?_, ?_⟩
  · intro s st h
    cases hlast : completion.getLast? with
    | none =>
      simp [render_and_score, hlast] at h
      obtain ⟨hs, hst⟩ := h
      subst hs
      exact ⟨Or.inl rfl, fun h1 => absurd h1 (by norm_num)⟩
    | some last =>
      by_cases herr : optStrTruthy (parse_response_json (last.content.getD "")).2 = true
      · simp [render_and_score, hlast, herr] at h
        obtain ⟨hs, hst⟩ := h
        subst hs
        exact ⟨Or.inl rfl, fun h1 => absurd h1 (by norm_num)⟩
      · cases hact : getActionsList (parse_response_json (last.content.getD "")).1 with
        | none =>
          simp [render_and_score, hlast, herr, hact] at h
          obtain ⟨hs, hst⟩ := h
          subst hs
          exact ⟨Or.inl rfl, fun h1 => absurd h1 (by norm_num)⟩
        | some l =>
          by_cases hava : (varg || state.validatorPresent) = true
          · cases bridge with
            | error e =>
              simp [render_and_score, hlast, herr, hact, hava] at h
            | ok result =>
              simp [render_and_score, hlast, herr, hact, hava] at h
              obtain ⟨hs, hst⟩ := h
              subst hs
              by_cases hf : errorsFalsy result = true
              · refine ⟨Or.inr ?_, fun _ => ⟨result, rfl, hf⟩⟩
                simp [scoreOfResult, hf]
              · refine ⟨Or.inl ?_, fun h1 => ?_⟩
                · simp [scoreOfResult, hf]
                · simp [scoreOfResult, hf] at h1
          · simp [render_and_score, hlast, herr, hact, hava] at h
            obtain ⟨hs, hst⟩ := h
            subst hs
            exact ⟨Or.inl rfl, fun h1 => absurd h1 (by norm_num)⟩
  · intro hlast
    simp [render_and_score, hlast]
  · intro last hlast herr
    simp [render_and_score, hlast, herr]
  · intro last hlast herr hact
    simp [render_and_score, hlast, herr, hact]
  · intro last l hlast herr hact hava
    simp [render_and_score, hlast, herr, hact, hava]
  · intro last l r hlast herr hact hava hb hf
    subst hb
    simp [render_and_score, hlast, herr, hact, hava, scoreOfResult, hf]
  · intro last l r hlast herr hact hava hb hf
    subst hb
    simp [render_and_score, hlast, herr, hact, hava, scoreOfResult, hf]
  · intro last l e hlast herr hact hava hb
    subst hb
    simp [render_and_score, hlast, herr, hact, hava]

/-- Witness for C1: on a concrete one-turn completion with a clean
bridge result, the call returns exactly 1.0 and stores the result and
the parsed action list; every hypothesis of the success clause is
discharged by evaluation. -/
theorem c1_render_and_score_score_contract_witness :
    render_and_score Examples.exCompletion Examples.exState true
        (.ok Examples.exCleanResult) =
      .ok (1, { Examples.exState with render := some Examples.exCleanResult, actions := some ([] : List PyJson.Json) }) :=
  (c1_render_and_score_score_contract Examples.exCompletion Examples.exState true
      (.ok Examples.exCleanResult)).2.2.2.2.2.1
    { content := some Examples.exActionsText } [] Examples.exCleanResult
    rfl rfl rfl rfl rfl rfl

/-- Counterexample to C1 as stated: a bridge result with empty `errors`
but a non-empty `action_errors` scores exactly 1.0 — the code never
reads `action_errors` (tldraw.py:339) — and a transport failure raises
out of the call (the uncaught `await validator.validate(actions)`,
tldraw.py:337) instead of returning 0.0 as the claim requires. -/
theorem c1_counterexample :
    Examples.exActionErrOnly.action_errors =
      some [{ stage := none, message := "arrow missing binding" }] ∧
    render_and_score Examples.exCompletion Examples.exState true
        (.ok Examples.exActionErrOnly) =
      .ok (1, Examples.exStateAfterActionErr) ∧
    render_and_score Examples.exCompletion Examples.exState true
        (.error "Timeout 15000ms exceeded.") =
      .error "Timeout 15000ms exceeded." :=
  ⟨rfl, rfl, rfl⟩

/-- A completed `_write_data_url` writes the explicit target exactly when
it reports success, and writes nothing otherwise. -/
theorem write_data_url_files (w : VWorld) (u target : String) (b : Bool) (fs : List String)
    (h : _write_data_url w u target = .ok (b, fs)) :
    (b = true ∧ fs = [target]) ∨ (b = false ∧ fs = []) := by
  unfold _write_data_url at h
  split at h
  · cases h
  · injection h with h
    injection h with h1 h2
    right
    exact ⟨h1.symm, h2.symm⟩
  · split at h
    · cases h
    · injection h with h
      injection h with h1 h2
      left
      exact ⟨h1.symm, h2.symm⟩

/-- A completed `_save_data_url` writes exactly the path it returns, and
writes nothing when the URL is undecodable. -/
theorem save_data_url_files (c : VCConfig) (w : VWorld) (u : String)
    (os : Option String) (fs : List String)
    (h : _save_data_url c w u = .ok (os, fs)) :
    (∃ p, os = some p ∧ fs = [p]) ∨ (os = none ∧ fs = []) := by
  unfold _save_data_url at h
  split at h
  · cases h
  · injection h with h
    injection h with h1 h2
    right
    exact ⟨h1.symm, h2.symm⟩
  · split at h
    · cases h
    · split at h
      · cases h
      · injection h with h
        injection h with h1 h2
        left
        exact ⟨_, h1.symm, h2.symm⟩

/-- A completed image resolution writes at most one file, and when it
writes one the image source is `tldraw_export`. -/
theorem resolveImage_files (c : VCConfig) (w : VWorld) (sp : Option String)
    (r0 r1 : VResult) (files : List String)
    (h : resolveImage c w sp r0 = .ok (r1, files)) :
    files = [] ∨ (∃ x, files = [x] ∧ r1.image_source = some ("tldraw_export")) := by
  unfold resolveImage at h
  split at h
  case _ d hd =>
    split at h
    · split at h
      · dsimp only at h
        split at h
        case _ u hu =>
          split at h
          · split at h
            · cases h
            case _ fs heq =>
              rcases write_data_url_files w u (sp.getD "") true fs heq with ⟨_, hfs⟩ | ⟨hb, _⟩
              · injection h with h
                injection h with h1 h2
                right
                exact ⟨sp.getD "", by rw [← h2, hfs], by rw [← h1]⟩
              · cases hb
            case _ fs heq =>
              rcases write_data_url_files w u (sp.getD "") false fs heq with ⟨hb, _⟩ | ⟨_, hfs⟩
              · cases hb
              · injection h with h
                injection h with h1 h2
                left
                rw [← h2, hfs]
          · injection h with h
            injection h with h1 h2
            left
            exact h2.symm
        case _ hu =>
          injection h with h
          injection h with h1 h2
          left
          exact h2.symm
      · split at h
        · split at h
          case _ u hu =>
            split at h
            · split at h
              · cases h
              case _ fs heq =>
                rcases save_data_url_files c w u _ fs heq with ⟨p, hp, hfs⟩ | ⟨hp, _⟩
                · injection h with h
                  injection h with h1 h2
                  right
                  refine ⟨_, by rw [← h2, hfs], by rw [← h1]⟩
                · cases hp
              case _ fs heq =>
                rcases save_data_url_files c w u _ fs heq with ⟨p, hp, _⟩ | ⟨_, hfs⟩
                · cases hp
                · injection h with h
                  injection h with h1 h2
                  left
                  rw [← h2, hfs]
            · injection h with h
              injection h with h1 h2
              left
              exact h2.symm
          case _ hu =>
            injection h with h
            injection h with h1 h2
            left
            exact h2.symm
        · injection h with h
          injection h with h1 h2
          left
          exact h2.symm
    · injection h with h
      injection h with h1 h2
      left
      exact h2.symm
  case _ =>
    injection h with h
    injection h with h1 h2
    left
    exact h2.symm

/-- The fallback stage passes through the files of the export stage and
takes a screenshot only when no image source was resolved. -/
theorem fallbackShot_effects (c : VCConfig) (w : VWorld) (sp : Option String)
    (r1 : VResult) (files : List String) (r : VResult) (eff : VEffects)
    (h : fallbackShot c w sp r1 files = .ok (r, eff)) :
    eff.wrote = files ∧ (optStrTruthy r1.image_source = true → eff.screenshot = none) := by
  unfold fallbackShot at h
  split at h
  case _ hcond =>
    dsimp only at h
    split at h
    · cases h
    · split at h
      · injection h with h
        injection h with h1 h2
        subst h2
        exact ⟨rfl, fun _ => rfl⟩
      · injection h with h
        injection h with h1 h2
        subst h2
        exact ⟨rfl, fun ht => absurd ht hcond.2⟩
  case _ =>
    injection h with h
    injection h with h1 h2
    subst h2
    exact ⟨rfl, fun _ => rfl⟩

theorem validate_image_bound (c : VCConfig) (w : VWorld) (sp : Option String)
    (r : VResult) (eff : VEffects)
    (h : validate c w sp = .ok (r, eff)) :
    eff.wrote.length + (match eff.screenshot with | some _ => 1 | none => 0) ≤ 1 := by
  unfold validate at h
  split at h
  · cases h
  · split at h
    · cases h
    · split at h
      · cases h
      case _ r1 files heq =>
        obtain ⟨hw, hs⟩ := fallbackShot_effects c w sp r1 files r eff h
        rcases resolveImage_files c w sp _ r1 files heq with hf | ⟨x, hx, hsrc⟩
        · subst hf
          rw [hw]
          cases hscr : eff.screenshot <;> simp [hscr]
        · rw [hx] at hw
          have hn : eff.screenshot = none := hs (by rw [hsrc]; decide)
          rw [hw, hn]
          simp

theorem log_append_bound (lc : LogConfig) (ls : LogState) (lw : LogWorld)
    (payload : List (String × String)) :
    logAppendCount lc ls lw payload ≤ 1 := by
  unfold logAppendCount
  split <;> decide

/-- C8 (amended: the `actions` entry is written whenever the validation
round-trip completes — also at score 0.0, since `state["actions"]` is
assigned before the error check (tldraw.py:338) — not only on success).
Four-part frame contract: on every non-raising path the returned state
has `render` set, every key other than `render` and `actions` is
untouched, and `actions` changes only to the action list of a completed
round-trip whose result was stored in `render`; whenever the guards
pass and the bridge completes, the returned state is exactly the input
state with `render` set to the result and `actions` set to the parsed
list, whatever the score; a completed `validate` call persists at most
one image file (counting the fallback screenshot); an error-log call
appends at most one entry. -/
theorem c8_render_and_score_state_effects :
    (∀ (completion : List ChatMessage) (state : VfState) (varg : Bool)
       (bridge : Except String TResult) (s : ℚ) (st : VfState),
      render_and_score completion state varg bridge = .ok (s, st) →
      st.render ≠ none ∧
      st.other = state.other ∧
      st.validatorPresent = state.validatorPresent ∧
      (st.actions = state.actions ∨
        ∃ r l, bridge = .ok r ∧ st.render = some r ∧ st.actions = some l)) ∧
    (∀ (completion : List ChatMessage) (state : VfState) (varg : Bool)
       (bridge : Except String TResult) (last : ChatMessage) (l : List PyJson.Json)
       (r : TResult),
      completion.getLast? = some last →
      optStrTruthy (parse_response_json (last.content.getD "")).2 = false →
      getActionsList (parse_response_json (last.content.getD "")).1 = some l →
      (varg || state.validatorPresent) = true →
      bridge = .ok r →
      render_and_score completion state varg bridge =
        .ok (scoreOfResult r, { state with render := some r, actions := some l })) ∧
    (∀ (c : VCConfig) (w : VWorld) (sp : Option String) (r : VResult) (eff : VEffects),
      validate c w sp = .ok (r, eff) →
      eff.wrote.length + (match eff.screenshot with | some _ => 1 | none => 0) ≤ 1) ∧
    (∀ (lc : LogConfig) (ls : LogState) (lw : LogWorld)
       (payload : List (String × String)),
      logAppendCount lc ls lw payload ≤ 1) := by
  refine ⟨?_, ?_, ?_, ?_⟩
  · intro completion state varg bridge s st h
    cases hlast : completion.getLast? with
    | none =>
      simp [render_and_score, hlast] at h
      obtain ⟨hs, hst⟩ := h
      subst hst
      exact ⟨by simp, rfl, rfl, Or.inl rfl⟩
    | some last =>
      by_cases herr : optStrTruthy (parse_response_json (last.content.getD "")).2 = true
      · simp [render_and_score, hlast, herr] at h
        obtain ⟨hs, hst⟩ := h
        subst hst
        exact ⟨by simp, rfl, rfl, Or.inl rfl⟩
      · cases hact : getActionsList (parse_response_json (last.content.getD "")).1 with
        | none =>
          simp [render_and_score, hlast, herr, hact] at h
          obtain ⟨hs, hst⟩ := h
          subst hst
          exact ⟨by simp, rfl, rfl, Or.inl rfl⟩
        | some l =>
          by_cases hava : (varg || state.validatorPresent) = true
          · cases bridge with
            | error e =>
              simp [render_and_score, hlast, herr, hact, hava] at h
            | ok result =>
              simp [render_and_score, hlast, herr, hact, hava] at h
              obtain ⟨hs, hst⟩ := h
              subst hst
              exact ⟨by simp, rfl, rfl, Or.inr ⟨result, l, rfl, rfl, rfl⟩⟩
          · simp [render_and_score, hlast, herr, hact, hava] at h
            obtain ⟨hs, hst⟩ := h
            subst hst
            exact ⟨by simp, rfl, rfl, Or.inl rfl⟩
  · intro completion state varg bridge last l r hlast herr hact hava hb
    subst hb
    simp [render_and_score, hlast, herr, hact, hava]
  · intro c w sp r eff h
    unfold validate at h
    split at h
    · cases h
    · split at h
      · cases h
      · split at h
        · cases h
        case _ r1 files heq =>
          obtain ⟨hw, hs⟩ := fallbackShot_effects c w sp r1 files r eff h
          rcases resolveImage_files c w sp _ r1 files heq with hf | ⟨x, hx, hsrc⟩
          · subst hf
            rw [hw]
            cases hscr : eff.screenshot <;> simp [hscr]
          · rw [hx] at hw
            have hn : eff.screenshot = none := hs (by rw [hsrc]; decide)
            rw [hw, hn]
            simp
  · intro lc ls lw payload
    unfold logAppendCount
    split <;> decide

/-- Witness for C8: a concrete completed round-trip that reports a
validation error still writes the `actions` entry alongside `render`,
with every other key untouched. -/
theorem c8_render_and_score_state_effects_witness :
    render_and_score Examples.exCompletion Examples.exState true
        (.ok Examples.exValidationErr) =
      .ok (scoreOfResult Examples.exValidationErr,
           { Examples.exState with render := some Examples.exValidationErr, actions := some ([] : List PyJson.Json) }) :=
  c8_render_and_score_state_effects.2.1 Examples.exCompletion Examples.exState true (.ok Examples.exValidationErr)
    { content := some Examples.exActionsText } [] Examples.exValidationErr
    rfl rfl rfl rfl rfl

/-- Counterexample to C8 as stated: a scoring call that completes with
score 0.0 (non-empty `errors`) still writes the `actions` entry, which
was previously absent — `state["actions"]` is assigned before the
error check (tldraw.py:338). -/
theorem c8_counterexample :
    render_and_score Examples.exCompletion Examples.exState true
        (.ok Examples.exValidationErr) =
      .ok (0, Examples.exStateAfterValidation) ∧
    Examples.exState.actions = none ∧
    Examples.exStateAfterValidation.actions = some [] :=
  ⟨rfl, rfl, rfl⟩


/-- C6 (amended: a transport-level failure of the bridge calls inside
the round-trip propagates to the caller as the raised error itself,
with its message unchanged — no "Validator failed: " prefix is added
anywhere in the code; the failure is still distinguishable from a
validation failure because it is raised rather than folded into the
returned result). -/
theorem c6_transport_failure_propagates :
    ∀ (c : VCConfig) (w : VWorld) (sp : Option String),
    (∀ e, w.resetErr = some e → validate c w sp = .error e) ∧
    (∀ e, w.resetErr = none → w.validateOutcome = .error e →
      validate c w sp = .error e) := by
  intro c w sp
  constructor
  · intro e he
    simp [validate, he]
  · intro e h1 h2
    simp [validate, h1, h2]

/-- Witness for C6: a concrete reset timeout propagates verbatim. -/
theorem c6_transport_failure_propagates_witness :
    validate Examples.exVCConfig Examples.exWorldResetFail none =
      .error "Timeout 15000ms exceeded." :=
  (c6_transport_failure_propagates Examples.exVCConfig Examples.exWorldResetFail none).1
    "Timeout 15000ms exceeded." rfl

/-- Counterexample to C6 as stated: the propagated transport error is
the raw playwright message; it does not start with the
"Validator failed: " prefix the claim requires. -/
theorem c6_counterexample :
    validate Examples.exVCConfig Examples.exWorldResetFail none =
      .error "Timeout 15000ms exceeded." ∧
    ("Timeout 15000ms exceeded.").take 18 ≠ "Validator failed: " :=
  ⟨rfl, by decide⟩

/-- C9: a data URL carrying the recognized base64 marker but a payload
that is not valid base64 makes `_decode_data_url` raise
(`binascii.Error`), and the raise escapes `validate` instead of being
recorded as an export-stage ErrorEntry — the no-raise guarantee of
image resolution holds only for unrecognized markers. -/
theorem c9_recognized_marker_bad_payload_raises :
    _decode_data_url Examples.exBadBase64Url.toList = .error "Incorrect padding" ∧
    validate Examples.exVCConfig Examples.exWorldBad64 none =
      .error "Incorrect padding" :=
  ⟨rfl, rfl⟩

/-- C7 (amended: only a failure of the append itself — the open/write
inside the `try` — is swallowed, with a report to the diagnostic
logger and a `None` return; a disk failure while creating the log
directory happens in `_ensure_error_log_path`, which is called outside
the `try`, and propagates to the caller). -/
theorem c7_log_error_payload_contract :
    ∀ (c : LogConfig) (s : LogState) (w : LogWorld) (payload : List (String × String)),
    (s.error_log_path = none → c.log_errors = true → w.mkdirErr = none →
      ∀ e, w.appendErr = some e →
      ∃ s', log_error_payload c s w payload = .ok (none, s', true)) ∧
    (∀ p, s.error_log_path = some p → c.log_errors = true →
      ∀ e, w.appendErr = some e →
      log_error_payload c s w payload = .ok (none, s, true)) ∧
    (c.log_errors = false → log_error_payload c s w payload = .ok (none, s, false)) := by
  intro c s w payload
  refine ⟨?_, ?_, ?_⟩
  · intro hp hle hmk e hap
    refine ⟨{ (_ensure_run_tag s w).2 with
      error_log_path := some (c.error_log_dir ++ "/" ++ (_ensure_run_tag s w).1 ++
        "/errors.jsonl") }, ?_⟩
    simp [log_error_payload, _ensure_error_log_path, hp, hle, hmk, hap]
  · intro p hp hle e hap
    simp [log_error_payload, hp, hle, hap]
  · intro hle
    simp [log_error_payload, hle]

/-- Witness for C7: with the log path already established, a concrete
append failure is swallowed into a `None` return plus a diagnostic
report. -/
theorem c7_log_error_payload_contract_witness :
    log_error_payload Examples.exLogConfig Examples.exLogStateReady
        Examples.exLogWorldAppendFail [("stage", "validation")] =
      .ok (none, Examples.exLogStateReady, true) :=
  (c7_log_error_payload_contract Examples.exLogConfig Examples.exLogStateReady
    Examples.exLogWorldAppendFail [("stage", "validation")]).2.1
    "outputs/errors/run_20260101_000000_abcd1234/errors.jsonl" rfl rfl
    "No space left on device" rfl

/-- Counterexample to C7 as stated: when the log path is not yet
established, a disk failure while creating the log directory raises
out of `log_error_payload` instead of returning `None` — the
`_ensure_error_log_path` call sits outside the `try` block
(validator_client.py:122). -/
theorem c7_counterexample :
    log_error_payload Examples.exLogConfig Examples.exLogStateFresh
        Examples.exLogWorldMkdirFail [("stage", "validation")] =
      .error "No space left on device" :=
  rfl


/-- The result fields that provenance annotation leaves untouched. -/
theorem annotateResult_fields (c : VCConfig) (r : VResult) :
    (annotateResult c r).errors = r.errors ∧
    (annotateResult c r).image = r.image ∧
    (annotateResult c r).image_source = r.image_source := by
  obtain ⟨a, b, rd0, el0⟩ := c
  cases rd0 <;> cases el0 <;> exact ⟨rfl, rfl, rfl⟩


theorem takeWhile_semi_split (l t : List Char) (h : ∀ a ∈ l, a ≠ ';') :
    (l ++ ';' :: t).takeWhile (fun c => c ≠ ';') = l ∧
    (l ++ ';' :: t).dropWhile (fun c => c ≠ ';') = ';' :: t := by
  induction l with
  | nil => simp [List.takeWhile_cons, List.dropWhile_cons]
  | cons a l ih =>
    have ha : a ≠ ';' := h a (List.mem_cons_self a l)
    have h1 := (ih (fun x hx => h x (List.mem_cons_of_mem a hx))).1
    have h2 := (ih (fun x hx => h x (List.mem_cons_of_mem a hx))).2
    constructor
    · simp only [List.cons_append, List.takeWhile_cons]
      simp only [decide_not] at h1 ⊢
      simp [ha, h1]
    · simp only [List.cons_append, List.dropWhile_cons]
      simp only [decide_not] at h2 ⊢
      simp [ha, h2]


theorem marker_comma_prefix_iff (m1 : List Char) :
    ∀ (m2 p : List Char), ',' ∉ m1 → ',' ∉ m2 →
    ((m1 ++ [',']) <+: (m2 ++ ',' :: p) ↔ m1 = m2) := by
  induction m1 with
  | nil =>
    intro m2 p _ h2
    cases m2 with
    | nil => simp
    | cons b m2' =>
      simp only [List.nil_append, List.cons_append, List.cons_prefix_cons]
      constructor
      · rintro ⟨hb, -⟩
        exact absurd (hb ▸ List.mem_cons_self b m2') h2
      · intro hh
        exact absurd hh (by simp)
  | cons a m1' ih =>
    intro m2 p h1 h2
    cases m2 with
    | nil =>
      simp only [List.cons_append, List.nil_append, List.cons_prefix_cons]
      constructor
      · rintro ⟨ha, -⟩
        exact absurd (ha ▸ List.mem_cons_self a m1') h1
      · intro hh
        exact absurd hh (by simp)
    | cons b m2' =>
      have h1' : ',' ∉ m1' := fun hx => h1 (List.mem_cons_of_mem a hx)
      have h2' : ',' ∉ m2' := fun hx => h2 (List.mem_cons_of_mem b hx)
      simp only [List.cons_append, List.cons_prefix_cons, ih m2' p h1' h2',
        List.cons.injEq]


theorem matchDataUrl_ne_marker (mk ext marker payload : List Char)
    (hsemi : ∀ a ∈ ext, a ≠ ';')
    (hmkc : ',' ∉ mk) (hmc : ',' ∉ marker) (hne : mk ≠ marker) :
    matchDataUrl mk
      (("data:image/").toList ++ ext ++ ';' :: marker ++ ',' :: payload) = none := by
  have hsplit := takeWhile_semi_split ext (marker ++ ',' :: payload) hsemi
  have hpre : (("data:image/").toList).isPrefixOf
      (("data:image/").toList ++ ext ++ ';' :: marker ++ ',' :: payload) = true := by
    rw [List.isPrefixOf_iff_prefix]
    exact List.prefix_append _ _
  have hdrop : (("data:image/").toList ++ ext ++ ';' :: marker ++ ',' :: payload).drop
      (("data:image/").toList).length = ext ++ ';' :: marker ++ ',' :: payload :=
    List.drop_left _ _
  have hnotpre : ((mk ++ [',']).isPrefixOf (marker ++ ',' :: payload)) = false := by
    rw [Bool.eq_false_iff]
    intro hc
    rw [List.isPrefixOf_iff_prefix, marker_comma_prefix_iff mk marker payload hmkc hmc] at hc
    exact hne hc
  have hshape : ext ++ ';' :: marker ++ ',' :: payload =
      ext ++ ';' :: (marker ++ ',' :: payload) := by
    simp [List.cons_append]
  simp only [matchDataUrl, hpre, if_true, hdrop, hshape, hsplit.1, hsplit.2, hnotpre,
    Bool.and_eq_true, Bool.false_eq_true, and_false, if_false]


theorem decode_unrecognized_marker (ext marker payload : List Char)
    (hsemi : ∀ a ∈ ext, a ≠ ';') (hmc : ',' ∉ marker)
    (h64 : marker ≠ ("base64").toList) (hu8 : marker ≠ ("utf8").toList) :
    _decode_data_url
      (("data:image/").toList ++ ext ++ ';' :: marker ++ ',' :: payload) = .ok none := by
  rw [_decode_data_url,
    matchDataUrl_ne_marker _ ext marker payload hsemi (by decide) hmc (Ne.symm h64),
    matchDataUrl_ne_marker _ ext marker payload hsemi (by decide) hmc (Ne.symm hu8)]


/-- C5: embedded-image decoding recognizes exactly the base64 and
percent-encoded-utf8 markers; for every data descriptor with any other
(comma-free) marker `_decode_data_url` returns `None` without raising,
and `validate` — run against such a result with screenshot saving
enabled, an established run directory and a healthy page — appends an
export-stage ErrorEntry to the result, persists a full-page screenshot
and sets `image_source = "page_screenshot"`. -/
theorem c5_unrecognized_marker_contract :
    (∀ ext marker payload : List Char,
      (∀ a ∈ ext, a ≠ ';') → ',' ∉ marker →
      marker ≠ ("base64").toList → marker ≠ ("utf8").toList →
      _decode_data_url
        (("data:image/").toList ++ ext ++ ';' :: marker ++ ',' :: payload) = .ok none) ∧
    _decode_data_url ("data:image/png;base64,QUJD").toList =
      .ok (some ("png", [65, 66, 67])) ∧
    _decode_data_url ("data:image/svg+xml;utf8,%3Csvg%3E").toList =
      .ok (some ("svg+xml", [60, 115, 118, 103, 62])) ∧
    (∀ (c : VCConfig) (w : VWorld) (sp : Option String) (r0 : VResult) (d : ImageDict)
        (u : String) (rd : String),
      _decode_data_url u.toList = .ok none →
      c.save_screenshots = true →
      c.run_dir = some rd →
      w.resetErr = none →
      w.validateOutcome = .ok r0 →
      w.screenshotErr = none →
      r0.image = some (.dict d) →
      d.url = some u →
      u ≠ "" →
      r0.image_source = none →
      ∃ r' eff,
        validate c w sp = .ok (r', eff) ∧
        (∃ msg, r'.errors = some ((r0.errors.getD []) ++
          [{ stage := some ("export"), message := msg }])) ∧
        r'.image_source = some ("page_screenshot") ∧
        (∃ target, eff.screenshot = some target ∧
          r'.image = some (.dict { d with path := some target })) ∧
        eff.wrote = []) := by
  refine ⟨fun ext marker payload hs hm h64 hu8 =>
    decode_unrecognized_marker ext marker payload hs hm h64 hu8, rfl, rfl, ?_⟩
  intro c w sp r0 d u rd hdec hss hrd hreset hval hshot himg hurl hu hsrc
  have hu' : optStrTruthy (some u) = true := by simp [optStrTruthy, hu]
  have hdec' : _decode_data_url u.data = .ok none := hdec
  have hnone : optStrTruthy (none : Option String) = false := rfl
  have hexp : ∃ msg, resolveImage c w sp r0 =
      .ok (appendError r0 ("export") msg, []) := by
    by_cases hsp : optStrTruthy sp = true
    · refine ⟨"Image export failed: unable to save data URL", ?_⟩
      simp [resolveImage, himg, hurl, dictTruthy, hsp, hu', _write_data_url, hdec']
    · refine ⟨"Image export failed: unsupported data URL", ?_⟩
      simp [resolveImage, himg, hurl, dictTruthy, hsp, hss, hu', _save_data_url, hdec']
  obtain ⟨msg, hexp⟩ := hexp
  have htarget : ∃ target,
      (if optStrTruthy sp = true then Except.ok (sp.getD "")
       else _build_screenshot_path c w ("png")) = .ok target := by
    by_cases hsp : optStrTruthy sp = true
    · exact ⟨sp.getD "", by rw [if_pos hsp]⟩
    · exact ⟨rd ++ "/render_" ++ w.randName ++ "." ++ "png",
        by rw [if_neg hsp]; simp [_build_screenshot_path, hrd]⟩
  obtain ⟨target, htarget⟩ := htarget
  have himg1 : (appendError r0 ("export") msg).image = some (.dict d) := himg
  have hsrc1 : (appendError r0 ("export") msg).image_source = none := hsrc
  have hfall : fallbackShot c w sp (appendError r0 ("export") msg) [] =
      .ok (annotateResult c { appendError r0 ("export") msg with
             image := some (.dict { d with path := some target }),
             image_source := some ("page_screenshot") },
           { wrote := [], screenshot := some target }) := by
    simp [fallbackShot, hss, hsrc1, hnone, htarget, hshot, himg1]
  refine ⟨annotateResult c { appendError r0 ("export") msg with
      image := some (.dict { d with path := some target }),
      image_source := some ("page_screenshot") },
    { wrote := [], screenshot := some target },
    ?_, ⟨msg, ?_⟩, ?_, ⟨target, rfl, ?_⟩, rfl⟩
  · simp [validate, hreset, hval, hexp, hfall]
  · rw [(annotateResult_fields c _).1]
    simp [appendError]
  · rw [(annotateResult_fields c _).2.2]
  · rw [(annotateResult_fields c _).2.1]

/-- Witness for C5: the undecodable `base85` descriptor from the
examples produces the export error plus the persisted page screenshot. -/
theorem c5_unrecognized_marker_contract_witness :
    ∃ r' eff,
      validate Examples.exVCConfig Examples.exWorld85 none = .ok (r', eff) ∧
      (∃ msg, r'.errors = some ((Examples.exBase85Result.errors.getD []) ++
        [{ stage := some ("export"), message := msg }])) ∧
      r'.image_source = some ("page_screenshot") ∧
      (∃ target, eff.screenshot = some target ∧
        r'.image = some (.dict
          { url := some Examples.exBase85Url, path := some target, extra := false })) ∧
      eff.wrote = [] :=
  c5_unrecognized_marker_contract.2.2.2 Examples.exVCConfig Examples.exWorld85 none
    Examples.exBase85Result
    { url := some Examples.exBase85Url, path := none, extra := false }
    Examples.exBase85Url "outputs/screenshots/run_20260101_000000_abcd1234"
    rfl rfl rfl rfl rfl rfl rfl rfl (by decide) rfl
/-- Replacing one list element changes `countP` according to the old
and new values only (equal predicate values leave the count fixed). -/
theorem countP_set_of_eq {α : Type} (p : α → Bool) (l : List α) (t : Nat) (x : α)
    (h : t < l.length) (hx : p x = p l[t]) :
    (l.set t x).countP p = l.countP p := by
  rw [List.countP_set p l t x h, hx]
  by_cases hp : p l[t] = true
  · have hpos : 0 < l.countP p := by
      rw [List.countP_pos_iff]
      exact ⟨l[t], List.getElem_mem h, hp⟩
    simp [hp]
    omega
  · simp [hp]

/-- Setting a non-counted element to a counted one adds one. -/
theorem countP_set_incr {α : Type} (p : α → Bool) (l : List α) (t : Nat) (x : α)
    (h : t < l.length) (hold : p l[t] = false) (hnew : p x = true) :
    (l.set t x).countP p = l.countP p + 1 := by
  rw [List.countP_set p l t x h, hold, hnew]
  simp

/-- Setting a counted element to a non-counted one removes one. -/
theorem countP_set_decr {α : Type} (p : α → Bool) (l : List α) (t : Nat) (x : α)
    (h : t < l.length) (hold : p l[t] = true) (hnew : p x = false) :
    (l.set t x).countP p + 1 = l.countP p := by
  rw [List.countP_set p l t x h, hold, hnew]
  have hpos : 0 < l.countP p := by
    rw [List.countP_pos_iff]
    exact ⟨l[t], List.getElem_mem h, hold⟩
  simp
  omega

/-- Returning from `start()` never leaves a task holding a page. -/
theorem isBody_finishStart (k : Cont) (rest : List Op) :
    isBody (finishStart k rest) = false := by
  cases k <;> rfl

/-- One interleaving step preserves the queue accounting — for every
task, every failure injection, and both round-trip exit paths. -/
theorem qInv_step (c : Config) (t : Nat) (f : Bool) (h : qInv c) : qInv (step c t f) := by
  unfold qInv inFlight at h ⊢
  cases hts : c.tasks[t]? with
  | none => simp only [step, hts]; exact h
  | some ts =>
    obtain ⟨hlen, hget⟩ := List.getElem?_eq_some.mp hts
    cases ts with
    | done => simp only [step, hts]; exact h
    | raised => simp only [step, hts]; exact h
    | ready ops =>
      cases ops with
      | nil =>
        simp only [step, hts]
        rw [countP_set_of_eq isBody c.tasks t .done hlen (by rw [hget]; rfl)]
        exact h
      | cons op rest =>
        cases op <;>
          (simp only [step, hts]
           rw [countP_set_of_eq isBody c.tasks t _ hlen (by rw [hget]; rfl)]
           exact h)
    | running pc rest =>
      cases pc with
      | startCheck k =>
        by_cases hst : c.started = true <;>
          (simp only [step, hts, hst, eq_self_iff_true, Bool.false_eq_true, if_true, if_false]
           rw [countP_set_of_eq isBody c.tasks t _ hlen
             (by rw [hget]; cases k <;> rfl)]
           exact h)
      | startLock k =>
        cases hlk : c.lockHeld with
        | some u => simp only [step, hts, hlk]; exact h
        | none =>
          simp only [step, hts, hlk]
          rw [countP_set_of_eq isBody c.tasks t _ hlen (by rw [hget]; rfl)]
          exact h
      | startRecheck k =>
        by_cases hst : c.started = true <;>
          (simp only [step, hts, hst, eq_self_iff_true, Bool.false_eq_true, if_true, if_false]
           rw [countP_set_of_eq isBody c.tasks t _ hlen
             (by rw [hget]; cases k <;> rfl)]
           exact h)
      | startLaunch k =>
        cases f <;>
          (simp only [step, hts, eq_self_iff_true, Bool.false_eq_true, if_true, if_false]
           rw [countP_set_of_eq isBody c.tasks t _ hlen (by rw [hget]; rfl)]
           exact h)
      | startCreate j k =>
        by_cases hj : j = c.poolSize
        · simp only [step, hts, hj, eq_self_iff_true, Bool.false_eq_true, if_true, if_false]
          rw [countP_set_of_eq isBody c.tasks t _ hlen
            (by rw [hget]; cases k <;> rfl)]
          exact h
        · cases f
          · simp only [step, hts, hj, eq_self_iff_true, Bool.false_eq_true, if_true, if_false]
            simp only [List.length_append, List.length_cons, List.length_nil]
            rw [countP_set_of_eq isBody c.tasks t _ hlen (by rw [hget]; rfl)]
            omega
          · simp only [step, hts, hj, eq_self_iff_true, Bool.false_eq_true, if_true, if_false]
            rw [countP_set_of_eq isBody c.tasks t _ hlen (by rw [hget]; rfl)]
            exact h
      | rtGet bf =>
        cases hq : c.queue with
        | nil =>
          simp only [step, hts, hq]
          rw [hq] at h
          exact h
        | cons p q =>
          simp only [step, hts, hq]
          rw [countP_set_incr isBody c.tasks t _ hlen (by rw [hget]; rfl) (by rfl)]
          rw [hq] at h
          simp only [List.length_cons] at h
          omega
      | rtBody p bf =>
        simp only [step, hts]
        have hdecr := countP_set_decr isBody c.tasks t (if bf then .raised else .ready rest)
          hlen (by rw [hget]; rfl) (by cases bf <;> rfl)
        simp only [List.length_append, List.length_cons, List.length_nil]
        omega
      | closing =>
        simp only [step, hts]
        rw [countP_set_of_eq isBody c.tasks t _ hlen (by rw [hget]; rfl)]
        exact h

/-- The queue accounting holds along every schedule. -/
theorem qInv_run (c : Config) (sched : List (Nat × Bool)) (h : qInv c) :
    qInv (run c sched) := by
  induction sched generalizing c with
  | nil => exact h
  | cons e es ih => exact ih (step c e.1 e.2) (qInv_step c e.1 e.2 h)

/-- Launching or creating pages happens only with the lock held. -/
theorem holdsLock_of_initPhase (s : TaskState) (h : initPhase s = true) :
    holdsLock s = true := by
  cases s with
  | running pc rest => cases pc <;> simp_all [initPhase, holdsLock]
  | ready ops => simp [initPhase] at h
  | done => simp [initPhase] at h
  | raised => simp [initPhase] at h

/-- A page-creating task holds the lock. -/
theorem holdsLock_of_creator (s : TaskState) (j : Nat) (h : creatorIdx s = some j) :
    holdsLock s = true := by
  cases s with
  | running pc rest => cases pc <;> simp_all [creatorIdx, holdsLock]
  | ready ops => simp [creatorIdx] at h
  | done => simp [creatorIdx] at h
  | raised => simp [creatorIdx] at h

/-- A pointwise property survives replacing one task. -/
theorem forall_tasks_set {P : TaskState → Prop} (l : List TaskState) (t : Nat)
    (x : TaskState) (hx : P x) (hl : ∀ (i : Nat) (s : TaskState), l[i]? = some s → P s) :
    ∀ (i : Nat) (s : TaskState), (l.set t x)[i]? = some s → P s := by
  intro i s hi
  rw [List.getElem?_set] at hi
  by_cases hit : t = i
  · rw [if_pos hit] at hi
    by_cases ht : t < l.length
    · rw [if_pos ht] at hi
      injection hi with hi
      rw [← hi]
      exact hx
    · rw [if_neg ht] at hi
      simp at hi
  · rw [if_neg hit] at hi
    exact hl i s hi

/-- Replacing one plain task (no lock, no initialization work) while
keeping the global pool fields preserves the `Inv3` invariant. -/
theorem inv3_plain_set (n : Nat) (c c' : Config) (t : Nat) (xold xnew : TaskState)
    (hts : c.tasks[t]? = some xold)
    (hps : c'.poolSize = c.poolSize) (hst : c'.started = c.started)
    (hlh : c'.lockHeld = c.lockHeld) (hcr : c'.created = c.created)
    (hbg : c'.browserGen = c.browserGen) (htk : c'.tasks = c.tasks.set t xnew)
    (hcfn : closeFree xold = true → closeFree xnew = true)
    (hlkn : holdsLock xnew = false)
    (hipn : initPhase xnew = false)
    (hcrn : creatorIdx xnew = none)
    (hcro : creatorIdx xold = none)
    (h : Inv3 n c) : Inv3 n c' := by
  obtain ⟨hpool, hcf, hlk, hstt, hust⟩ := h
  refine ⟨hps ▸ hpool, ?_, ?_, ?_, ?_⟩
  · rw [htk]
    exact forall_tasks_set c.tasks t xnew (hcfn (hcf t xold hts)) hcf
  · intro i s hi hh
    rw [htk, List.getElem?_set] at hi
    rw [hlh]
    by_cases hit : t = i
    · rw [if_pos hit] at hi
      by_cases htl : t < c.tasks.length
      · rw [if_pos htl] at hi
        injection hi with hi
        rw [← hi] at hh
        rw [hlkn] at hh
        cases hh
      · rw [if_neg htl] at hi
        simp at hi
    · rw [if_neg hit] at hi
      exact hlk i s hi hh
  · intro hs
    obtain ⟨h1, h2, h3⟩ := hstt (by rw [← hst]; exact hs)
    refine ⟨by rw [hcr]; exact h1, by rw [hbg]; exact h2, ?_⟩
    rw [htk]
    exact forall_tasks_set c.tasks t xnew hipn h3
  · intro hs
    rcases hust (by rw [← hst]; exact hs) with ⟨hcr0, hc0, hg0⟩ | ⟨u, j, k, rest, hu, hcj, hjn, hg1⟩
    · left
      refine ⟨?_, by rw [hcr]; exact hc0, by rw [hbg]; exact hg0⟩
      rw [htk]
      exact forall_tasks_set c.tasks t xnew hcrn hcr0
    · right
      have hut : u ≠ t := by
        intro he
        rw [he, hts] at hu
        injection hu with hu
        rw [hu] at hcro
        simp [creatorIdx] at hcro
      refine ⟨u, j, k, rest, ?_, by rw [hcr]; exact hcj, hjn, by rw [hbg]; exact hg1⟩
      rw [htk, List.getElem?_set_ne (fun he => hut he.symm)]
      exact hu

/-- Close-freedom of the continuation of a finished `start()`. -/
theorem closeFree_finishStart (k : Cont) (rest : List Op) :
    closeFree (finishStart k rest) = !(rest.contains Op.opClose) := by
  cases k <;> simp [finishStart, closeFree, opsOf]

/-- Close-freedom of a running non-closing task is about its remaining
operations. -/
theorem closeFree_running (pc : PC) (rest : List Op) (hpc : pc ≠ PC.closing) :
    closeFree (.running pc rest) = !(rest.contains Op.opClose) := by
  cases pc <;> simp [closeFree, opsOf] at hpc ⊢

/-- One failure-free interleaving step preserves `Inv3`. -/
theorem inv3_step (n : Nat) (c : Config) (t : Nat) (h : Inv3 n c) :
    Inv3 n (step c t false) := by
  cases hts : c.tasks[t]? with
  | none => simpa only [step, hts] using h
  | some ts =>
    obtain ⟨hlen, hget⟩ := List.getElem?_eq_some.mp hts
    cases ts with
    | done => simpa only [step, hts] using h
    | raised => simpa only [step, hts] using h
    | ready ops =>
      cases ops with
      | nil =>
        simp only [step, hts]
        exact inv3_plain_set n c _ t _ _ hts rfl rfl rfl rfl rfl rfl
          (fun _ => rfl) rfl rfl rfl rfl h
      | cons op rest =>
        cases op with
        | opStart =>
          simp only [step, hts]
          refine inv3_plain_set n c _ t _ _ hts rfl rfl rfl rfl rfl rfl
            ?_ rfl rfl rfl rfl h
          intro hh
          rw [closeFree_running _ _ (by simp)]
          simp [closeFree, opsOf, List.contains_cons] at hh ⊢
          exact hh
        | opLease bf =>
          simp only [step, hts]
          refine inv3_plain_set n c _ t _ _ hts rfl rfl rfl rfl rfl rfl
            ?_ rfl rfl rfl rfl h
          intro hh
          rw [closeFree_running _ _ (by simp)]
          simp [closeFree, opsOf, List.contains_cons] at hh ⊢
          exact hh
        | opClose =>
          exfalso
          have := h.2.1 t _ hts
          simp [closeFree, opsOf, List.contains_cons] at this
    | running pc rest =>
      cases pc with
      | startCheck k =>
        by_cases hst : c.started = true
        · simp only [step, hts]
          rw [if_pos hst]
          refine inv3_plain_set n c _ t _ _ hts rfl rfl rfl rfl rfl rfl
            ?_ (by cases k <;> rfl) (by cases k <;> rfl) (by cases k <;> rfl) rfl h
          intro hh
          rw [closeFree_finishStart]
          simp [closeFree, opsOf] at hh ⊢
          exact hh
        · simp only [step, hts]
          rw [if_neg hst]
          refine inv3_plain_set n c _ t _ _ hts rfl rfl rfl rfl rfl rfl
            ?_ rfl rfl rfl rfl h
          intro hh
          rw [closeFree_running _ _ (by simp)]
          simp [closeFree, opsOf] at hh ⊢
          exact hh
      | startLock k =>
        obtain ⟨hpool, hcf, hlk, hstt, hust⟩ := h
        cases hlh : c.lockHeld with
        | some u =>
          simpa only [step, hts, hlh] using ⟨hpool, hcf, hlk, hstt, hust⟩
        | none =>
          simp only [step, hts, hlh]
          refine ⟨hpool, ?_, ?_, ?_, ?_⟩
          · exact forall_tasks_set c.tasks t _
              (by
                have hh := hcf t _ hts
                rw [closeFree_running _ _ (by simp)]
                simp [closeFree, opsOf] at hh ⊢
                exact hh) hcf
          · intro i s hi hh
            by_cases hit : t = i
            · rw [← hit]
            · rw [List.getElem?_set_ne hit] at hi
              have := hlk i s hi hh
              rw [hlh] at this
              cases this
          · intro hs
            obtain ⟨h1, h2, h3⟩ := hstt hs
            exact ⟨h1, h2, forall_tasks_set c.tasks t _ rfl h3⟩
          · intro hs
            rcases hust hs with ⟨hcr0, hc0, hg0⟩ | ⟨u, j, k', rest', hu, hcj, hjn, hg1⟩
            · left
              exact ⟨forall_tasks_set c.tasks t _ rfl hcr0, hc0, hg0⟩
            · exfalso
              have := hlk u _ hu (holdsLock_of_creator _ j rfl)
              rw [hlh] at this
              cases this
      | startRecheck k =>
        obtain ⟨hpool, hcf, hlk, hstt, hust⟩ := h
        have hheld : c.lockHeld = some t := hlk t _ hts rfl
        by_cases hst : c.started = true
        · simp only [step, hts]
          rw [if_pos hst]
          refine ⟨hpool, ?_, ?_, ?_, ?_⟩
          · exact forall_tasks_set c.tasks t _
              (by
                have hh := hcf t _ hts
                rw [closeFree_finishStart]
                simp [closeFree, opsOf] at hh ⊢
                exact hh) hcf
          · intro i s hi hh
            by_cases hit : t = i
            · rw [← hit] at hi
              rw [List.getElem?_set_self hlen] at hi
              injection hi with hi
              rw [← hi] at hh
              rw [show holdsLock (finishStart k rest) = false by cases k <;> rfl] at hh
              cases hh
            · rw [List.getElem?_set_ne hit] at hi
              have := hlk i s hi hh
              rw [hheld] at this
              injection this with this
              exact absurd this hit
          · intro hs
            obtain ⟨h1, h2, h3⟩ := hstt hst
            exact ⟨h1, h2, forall_tasks_set c.tasks t _ (by cases k <;> rfl) h3⟩
          · intro hs
            rw [hst] at hs
            cases hs
        · simp only [step, hts]
          rw [if_neg hst]
          have hnst : c.started = false := by
            cases hcs : c.started with
            | false => rfl
            | true => exact absurd hcs hst
          refine ⟨hpool, ?_, ?_, ?_, ?_⟩
          · exact forall_tasks_set c.tasks t _
              (by
                have hh := hcf t _ hts
                rw [closeFree_running _ _ (by simp)]
                simp [closeFree, opsOf] at hh ⊢
                exact hh) hcf
          · intro i s hi hh
            by_cases hit : t = i
            · rw [← hit, hheld]
            · rw [List.getElem?_set_ne hit] at hi
              exact hlk i s hi hh
          · intro hs
            rw [hnst] at hs
            cases hs
          · intro hs
            rcases hust hnst with ⟨hcr0, hc0, hg0⟩ | ⟨u, j, k', rest', hu, hcj, hjn, hg1⟩
            · left
              exact ⟨forall_tasks_set c.tasks t _ rfl hcr0, hc0, hg0⟩
            · exfalso
              have := hlk u _ hu (holdsLock_of_creator _ j rfl)
              rw [hheld] at this
              injection this with this
              rw [← this, hts] at hu
              injection hu with hu
              cases hu
      | startLaunch k =>
        obtain ⟨hpool, hcf, hlk, hstt, hust⟩ := h
        have hheld : c.lockHeld = some t := hlk t _ hts rfl
        have hnst : c.started = false := by
          cases hcs : c.started with
          | false => rfl
          | true =>
            have := (hstt hcs).2.2 t _ hts
            cases this
        rcases hust hnst with ⟨hcr0, hc0, hg0⟩ | ⟨u, j, k', rest', hu, hcj, hjn, hg1⟩
        · simp only [step, hts]
          rw [if_neg Bool.false_ne_true]
          refine ⟨hpool, ?_, ?_, ?_, ?_⟩
          · exact forall_tasks_set c.tasks t _
              (by
                have hh := hcf t _ hts
                rw [closeFree_running _ _ (by simp)]
                simp [closeFree, opsOf] at hh ⊢
                exact hh) hcf
          · intro i s hi hh
            by_cases hit : t = i
            · rw [← hit, hheld]
            · rw [List.getElem?_set_ne hit] at hi
              exact hlk i s hi hh
          · intro hs
            rw [hnst] at hs
            cases hs
          · intro hs
            right
            refine ⟨t, 0, k, rest, ?_, hc0, Nat.zero_le n, by rw [hg0]⟩
            rw [List.getElem?_set_self hlen]
        · exfalso
          have := hlk u _ hu (holdsLock_of_creator _ j rfl)
          rw [hheld] at this
          injection this with this
          rw [← this, hts] at hu
          injection hu with hu
          cases hu
      | startCreate j k =>
        obtain ⟨hpool, hcf, hlk, hstt, hust⟩ := h
        have hheld : c.lockHeld = some t := hlk t _ hts rfl
        have hnst : c.started = false := by
          cases hcs : c.started with
          | false => rfl
          | true =>
            have := (hstt hcs).2.2 t _ hts
            cases this
        have hdis := hust hnst
        rcases hdis with ⟨hcr0, hc0, hg0⟩ | ⟨u, j', k', rest', hu, hcj, hjn, hg1⟩
        · exfalso
          have := hcr0 t _ hts
          cases this
        · have hut : u = t := by
            have := hlk u _ hu (holdsLock_of_creator _ j' rfl)
            rw [hheld] at this
            injection this with this
            exact this.symm
          rw [hut, hts] at hu
          injection hu with hu
          injection hu with hpc hrest
          injection hpc with hj hk
          by_cases hjp : j = c.poolSize
          · simp only [step, hts]
            rw [if_pos hjp]
            refine ⟨hpool, ?_, ?_, ?_, ?_⟩
            · exact forall_tasks_set c.tasks t _
                (by
                  have hh := hcf t _ hts
                  rw [closeFree_finishStart]
                  simp [closeFree, opsOf] at hh ⊢
                  exact hh) hcf
            · intro i s hi hh
              by_cases hit : t = i
              · rw [← hit] at hi
                rw [List.getElem?_set_self hlen] at hi
                injection hi with hi
                rw [← hi] at hh
                rw [show holdsLock (finishStart k rest) = false by cases k <;> rfl] at hh
                cases hh
              · rw [List.getElem?_set_ne hit] at hi
                have := hlk i s hi hh
                rw [hheld] at this
                injection this with this
                exact absurd this hit
            · intro hs
              refine ⟨?_, hg1, ?_⟩
              · rw [hcj, ← hj, hjp, hpool]
              · intro i s hi
                by_cases hit : t = i
                · rw [← hit] at hi
                  rw [List.getElem?_set_self hlen] at hi
                  injection hi with hi
                  rw [← hi]
                  cases k <;> rfl
                · rw [List.getElem?_set_ne hit] at hi
                  cases hip : initPhase s with
                  | false => rfl
                  | true =>
                    exfalso
                    have := hlk i s hi (holdsLock_of_initPhase s hip)
                    rw [hheld] at this
                    injection this with this
                    exact absurd this hit
            · intro hs
              cases hs
          · simp only [step, hts]
            rw [if_neg hjp, if_neg Bool.false_ne_true]
            refine ⟨hpool, ?_, ?_, ?_, ?_⟩
            · exact forall_tasks_set c.tasks t _
                (by
                  have hh := hcf t _ hts
                  rw [closeFree_running _ _ (by simp)]
                  simp [closeFree, opsOf] at hh ⊢
                  exact hh) hcf
            · intro i s hi hh
              by_cases hit : t = i
              · rw [← hit, hheld]
              · rw [List.getElem?_set_ne hit] at hi
                exact hlk i s hi hh
            · intro hs
              rw [hnst] at hs
              cases hs
            · intro hs
              right
              refine ⟨t, j + 1, k, rest, ?_, ?_, ?_, hg1⟩
              · rw [List.getElem?_set_self hlen]
              · rw [hcj, hj]
              · have : j ≤ n := by rw [hj]; exact hjn
                have hlt : j < n := by
                  rcases Nat.lt_or_ge j n with hl | hg
                  · exact hl
                  · exfalso
                    exact hjp (Nat.le_antisymm (hpool ▸ this) (hpool ▸ hg) ▸ rfl)
                omega
      | rtGet bf =>
        cases hq : c.queue with
        | nil => simpa only [step, hts, hq] using h
        | cons p q =>
          simp only [step, hts, hq]
          exact inv3_plain_set n c _ t _ _ hts rfl rfl rfl rfl rfl rfl
            (by
              intro hh
              rw [closeFree_running _ _ (by simp)]
              simp [closeFree, opsOf] at hh ⊢
              exact hh) rfl rfl rfl rfl h
      | rtBody p bf =>
        simp only [step, hts]
        cases bf with
        | true =>
          exact inv3_plain_set n c _ t _ _ hts rfl rfl rfl rfl rfl rfl
            (fun _ => rfl) rfl rfl rfl rfl h
        | false =>
          exact inv3_plain_set n c _ t _ _ hts rfl rfl rfl rfl rfl rfl
            (by
              intro hh
              simp [closeFree, opsOf] at hh ⊢
              exact hh) rfl rfl rfl rfl h
      | closing =>
        exfalso
        have := h.2.1 t _ hts
        simp [closeFree] at this

/-- `Inv3` holds along every failure-free schedule. -/
theorem inv3_run (n : Nat) (c : Config) (sched : List (Nat × Bool))
    (hc : Inv3 n c) (hs : ∀ e ∈ sched, e.2 = false) : Inv3 n (run c sched) := by
  induction sched generalizing c with
  | nil => exact hc
  | cons e es ih =>
    have he : e.2 = false := hs e (List.mem_cons_self e es)
    have hstep : Inv3 n (step c e.1 e.2) := by
      rw [he]
      exact inv3_step n c e.1 hc
    exact ih (step c e.1 e.2) hstep (fun x hx => hs x (List.mem_cons_of_mem e hx))

/-- `Inv3` holds initially for close-free task programs. -/
theorem inv3_init (n : Nat) (opss : List (List Op))
    (h : ∀ ops ∈ opss, Op.opClose ∉ ops) : Inv3 n (initConfig n opss) := by
  refine ⟨rfl, ?_, ?_, ?_, ?_⟩
  · intro i s hi
    simp only [initConfig, List.getElem?_map] at hi
    cases hop : opss[i]? with
    | none => rw [hop] at hi; cases hi
    | some ops =>
      rw [hop] at hi
      injection hi with hi
      rw [← hi]
      have hmem : ops ∈ opss := by
        obtain ⟨hl, hg⟩ := List.getElem?_eq_some.mp hop
        rw [← hg]
        exact List.getElem_mem hl
      simp [closeFree, opsOf]
      exact h ops hmem
  · intro i s hi hh
    simp only [initConfig, List.getElem?_map] at hi
    cases hop : opss[i]? with
    | none => rw [hop] at hi; cases hi
    | some ops =>
      rw [hop] at hi
      injection hi with hi
      rw [← hi] at hh
      cases hh
  · intro hs
    cases hs
  · intro _
    left
    refine ⟨?_, rfl, rfl⟩
    intro i s hi
    simp only [initConfig, List.getElem?_map] at hi
    cases hop : opss[i]? with
    | none => rw [hop] at hi; cases hi
    | some ops =>
      rw [hop] at hi
      injection hi with hi
      rw [← hi]
      rfl

/-- No round-trip is in flight initially. -/
theorem inFlight_init (n : Nat) (opss : List (List Op)) :
    inFlight (initConfig n opss) = 0 := by
  unfold inFlight initConfig
  rw [List.countP_eq_zero]
  intro a ha
  obtain ⟨ops, -, rfl⟩ := List.mem_map.mp ha
  simp [isBody]

/-- C3 (amended: the bounds hold for executions in which no
initialization step fails and no task calls `close()`; after a partial
initialization failure a retry re-creates `pool_size` fresh pages
without clearing the queue and violates them — see the
counterexample).  In every failure-free, close-free schedule of any
number of client tasks, the pool creates at most `pool_size` pages in
total, performs at most one real initialization (at most one browser
launch), and at most `pool_size` round-trips hold a page at any time. -/
theorem c3_pool_capacity_bounds :
    ∀ (n : Nat) (opss : List (List Op)) (sched : List (Nat × Bool)),
    1 ≤ n →
    (∀ ops ∈ opss, Op.opClose ∉ ops) →
    (∀ e ∈ sched, e.2 = false) →
    (run (initConfig n opss) sched).created ≤ n ∧
    (run (initConfig n opss) sched).browserGen ≤ 1 ∧
    inFlight (run (initConfig n opss) sched) ≤ n := by
  intro n opss sched _ hops hsched
  have hinv := inv3_run n (initConfig n opss) sched (inv3_init n opss hops) hsched
  obtain ⟨hpool, -, -, hstt, hust⟩ := hinv
  have hq : qInv (run (initConfig n opss) sched) := by
    apply qInv_run
    unfold qInv
    rw [inFlight_init]
    rfl
  have hcreated : (run (initConfig n opss) sched).created ≤ n ∧
      (run (initConfig n opss) sched).browserGen ≤ 1 := by
    cases hstc : (run (initConfig n opss) sched).started with
    | true =>
      obtain ⟨h1, h2, -⟩ := hstt hstc
      exact ⟨h1.le, h2.le⟩
    | false =>
      rcases hust hstc with ⟨-, hc0, hg0⟩ | ⟨u, j, k, rest, -, hcj, hjn, hg1⟩
      · rw [hc0, hg0]
        exact ⟨Nat.zero_le n, Nat.zero_le 1⟩
      · rw [hcj, hg1]
        exact ⟨hjn, le_refl 1⟩
  refine ⟨hcreated.1, hcreated.2, ?_⟩
  unfold qInv at hq
  omega

/-- Witness for C3: the bounds evaluated on a concrete failure-free
single-client run with `pool_size = 1`. -/
theorem c3_pool_capacity_bounds_witness :
    (run (initConfig 1 [[Op.opLease false]]) (Examples.rep 0 10)).created ≤ 1 ∧
    (run (initConfig 1 [[Op.opLease false]]) (Examples.rep 0 10)).browserGen ≤ 1 ∧
    inFlight (run (initConfig 1 [[Op.opLease false]]) (Examples.rep 0 10)) ≤ 1 :=
  c3_pool_capacity_bounds 1 [[Op.opLease false]] (Examples.rep 0 10)
    (by decide) (by decide) (by decide)

/-- Counterexample to C3 as stated: with `pool_size = 2`, a `start()`
attempt that fails after creating its first page, followed by a second
caller that retries, ends with 3 pages created and 2 browser launches
— `start()` neither clears the queue nor tears down pages of the
failed attempt (validator_client.py:64-93), so "at most N Sessions in
total" and "at most one real initialization" both fail. -/
theorem c3_counterexample :
    (run Examples.cfgTwoLease Examples.schedPartialFail).poolSize = 2 ∧
    (run Examples.cfgTwoLease Examples.schedPartialFail).created = 3 ∧
    (run Examples.cfgTwoLease Examples.schedPartialFail).browserGen = 2 ∧
    (run Examples.cfgTwoLease Examples.schedPartialFail).queue.length = 3 := by
  decide

/-- C4: `_with_page` re-enqueues the leased page at the tail of the
FIFO queue on every exit path — also when the round-trip body raises,
in which case the task dies but the page is back in the queue — and,
across every schedule (failure injections included), idle pages plus
in-flight round-trips account for every page ever created, so a
finished or failed round-trip always restores the pool's idle
capacity. -/
theorem c4_session_released_on_every_path :
    (∀ (c : Config) (t : Nat) (f : Bool) (p : Page) (bf : Bool) (rest : List Op),
      c.tasks[t]? = some (.running (.rtBody p bf) rest) →
      (step c t f).queue = c.queue ++ [p] ∧
      (step c t f).tasks[t]? =
        some (if bf then TaskState.raised else TaskState.ready rest)) ∧
    (∀ (n : Nat) (opss : List (List Op)) (sched : List (Nat × Bool)),
      qInv (run (initConfig n opss) sched)) := by
  constructor
  · intro c t f p bf rest h
    obtain ⟨hlen, -⟩ := List.getElem?_eq_some.mp h
    constructor
    · simp only [step, h]
    · simp only [step, h]
      rw [List.getElem?_set_self hlen]
  · intro n opss sched
    apply qInv_run
    unfold qInv
    rw [inFlight_init]
    rfl

/-- Witness for C4: a concrete round-trip whose body raises still
re-enqueues its page at the tail. -/
theorem c4_session_released_on_every_path_witness :
    (step (run Examples.cfgFailingBody (Examples.rep 0 8)) 0 false).queue =
      (run Examples.cfgFailingBody (Examples.rep 0 8)).queue ++
        [{ gen := 0, idx := 0 }] ∧
    (step (run Examples.cfgFailingBody (Examples.rep 0 8)) 0 false).tasks[0]? =
      some (if true then TaskState.raised else TaskState.ready []) :=
  c4_session_released_on_every_path.1 (run Examples.cfgFailingBody (Examples.rep 0 8))
    0 false { gen := 0, idx := 0 } true [] (by decide)

/-- C10: `close()` closes the current browser and clears `_started`
but leaves the idle queue untouched; after start-close-start the queue
holds the pages of both lifetimes in FIFO order, and the next lease
returns the first-lifetime page whose browser was already closed. -/
theorem c10_close_keeps_queue :
    (∀ (c : Config) (t : Nat) (f : Bool) (rest : List Op),
      c.tasks[t]? = some (.running .closing rest) →
      (step c t f).queue = c.queue ∧
      (step c t f).started = false ∧
      (step c t f).created = c.created) ∧
    (run Examples.cfgRestart Examples.schedRestartPre).queue =
      [{ gen := 0, idx := 0 }, { gen := 1, idx := 0 }] ∧
    (run Examples.cfgRestart Examples.schedRestart).tasks =
      [.running (.rtBody { gen := 0, idx := 0 } false) []] ∧
    (run Examples.cfgRestart Examples.schedRestart).closedGens = [0] ∧
    (run Examples.cfgRestart Examples.schedRestart).queue = [{ gen := 1, idx := 0 }] := by
  refine ⟨?_, by decide, by decide, by decide, by decide⟩
  intro c t f rest h
  simp [step, h]

/-- Witness for C10: the close step of the concrete restart scenario
leaves the queue as it was. -/
theorem c10_close_keeps_queue_witness :
    (step (run Examples.cfgRestart (Examples.rep 0 8)) 0 false).queue =
      (run Examples.cfgRestart (Examples.rep 0 8)).queue ∧
    (step (run Examples.cfgRestart (Examples.rep 0 8)) 0 false).started = false ∧
    (step (run Examples.cfgRestart (Examples.rep 0 8)) 0 false).created =
      (run Examples.cfgRestart (Examples.rep 0 8)).created :=
  c10_close_keeps_queue.1 (run Examples.cfgRestart (Examples.rep 0 8)) 0 false
    [Op.opStart, Op.opLease false] (by decide)
